import Mathlib

/-!
# Bingo card OCR processor: text-to-grid parsing and fallback card

Shallow embedding of `exports.handler`, `parseBingoText` and
`getDefaultBingoCard` of `netlify/functions/ocr-processor.js`.

Conventions of the embedding.

* A JavaScript string is a `String`, processed as its list of characters.
  The characters the program inspects (whitespace, digits, sign, `x`, the
  letters of `FREE`) all lie in the basic plane, so working on code points
  instead of UTF-16 code units does not change any test the program makes.
* `Math.random()` is a stateful call.  A random source is the sequence of its
  results, each a binary64 number in `[0,1)`, held as the rational it is; the
  number of calls made so far is threaded through the loops.  The product with
  the width of a column range is rounded to binary64 (to nearest, ties to even),
  as the multiplication of two Numbers is.
* A cell of a grid is the string `'FREE'` or a number.
* The handler is run against a collaborator (client construction and text
  detection) and returns, with its response, the trace of the steps that read the
  request body or reach the decoder, the collaborator or the parser.  The request
  body is given by what `JSON.parse` makes of it, and the body of a response by
  the object handed to `JSON.stringify`.
-/

namespace BingoOcr

/-! ## Data model -/

/-- A grid cell: the sentinel `'FREE'` or a number. -/
inductive Cell where
  | free : Cell
  | num (n : Int) : Cell
  deriving DecidableEq, Repr

/-- A grid as the program builds it: an array of rows, each an array of cells. -/
abbrev Grid := List (List Cell)

/-! ### Binary64 arithmetic

Numbers are binary64.  The values met here are not negative and stay below 75,
far from overflow, so a Number is held as a non-negative rational and only the
rounding of a result is modelled. -/

/-- The nearest integer to `n`, the even one of the two when `n` lies half way. -/
def roundHalfEven (n : ℚ) : Int :=
  if n - Int.floor n < 1 / 2 then Int.floor n
  else if 1 / 2 < n - Int.floor n then Int.floor n + 1
  else if Int.floor n % 2 = 0 then Int.floor n else Int.floor n + 1

/-- The exponent of the binade of a non-negative number in binary64: the integer
part of its logarithm in base 2, and -1022 for the subnormal numbers. -/
def binadeExponent (p : ℚ) : Int :=
  if p ≤ 0 then -1022 else max (Int.log 2 p) (-1022)

/-- The unit in the last place of the binade of `p`: a significand has 53 bits. -/
def ulp (p : ℚ) : ℚ :=
  (2 : ℚ) ^ (binadeExponent p - 52)

/-- Rounding of a non-negative real result to binary64, to nearest and to even
on a tie (below the overflow threshold). -/
def roundDouble (p : ℚ) : ℚ :=
  roundHalfEven (p / ulp p) * ulp p

/-- One result of `Math.random()`: a binary64 number in `[0,1)`, that is a rational
of `[0,1)` that rounding leaves unchanged. -/
def Unit01 : Type := { x : ℚ // 0 ≤ x ∧ x < 1 ∧ roundDouble x = x }

/-- A random source: the result of the `k`-th call of `Math.random()`. -/
abbrev RandomSource := Nat → Unit01

/-- The table `columnRanges` of both functions: `[min, max]` per column. -/
def columnRanges : List (Int × Int) :=
  [(1, 15), (16, 30), (31, 45), (46, 60), (61, 75)]

/-- The draw `Math.floor(Math.random() * (max - min + 1)) + min`, where `x` is the
result of the call of `Math.random()`.  The width `max - min + 1` and the final
sum are integers of small size, on which the arithmetic of Numbers is exact; the
product is rounded to binary64; `Math.floor` is exact. -/
def randomInt (min max : Int) (x : Unit01) : Int :=
  Int.floor (roundDouble (x.val * (((max - min + 1 : Int)) : ℚ))) + min

/-! ## `getDefaultBingoCard` -/

/-- Body of the inner loop of `getDefaultBingoCard`: the state is the row built
so far and the number of `Math.random()` calls made so far. -/
def defaultCell (rand : RandomSource) (row : Nat) (st : List Cell × Nat) (col : Nat) :
    List Cell × Nat :=
  if row = 2 ∧ col = 2 then
    (st.1 ++ [Cell.free], st.2)
  else
    let range := columnRanges.getD col (0, 0)
    (st.1 ++ [Cell.num (randomInt range.1 range.2 (rand st.2))], st.2 + 1)

/-- Body of the outer loop of `getDefaultBingoCard`: `card[row] = []` followed by
the loop over the five columns. -/
def defaultRow (rand : RandomSource) (st : Grid × Nat) (row : Nat) : Grid × Nat :=
  let r := (List.range 5).foldl (defaultCell rand row) ([], st.2)
  (st.1 ++ [r.1], r.2)

/-- The function `getDefaultBingoCard()`, run against a random source. -/
def getDefaultBingoCard (rand : RandomSource) : Grid :=
  ((List.range 5).foldl (defaultRow rand) ([], 0)).1

/-! ## String primitives used by `parseBingoText` -/

/-- The class `\s` of a regular expression, which is also the set of characters
removed by `trim()` and skipped by `parseInt`: white space and line terminators. -/
def isWhiteSpace (c : Char) : Bool :=
  let n := c.toNat
  n = 0x09 || n = 0x0A || n = 0x0B || n = 0x0C || n = 0x0D || n = 0x20 || n = 0xA0 ||
  n = 0x1680 || (0x2000 ≤ n && n ≤ 0x200A) || n = 0x2028 || n = 0x2029 || n = 0x202F ||
  n = 0x205F || n = 0x3000 || n = 0xFEFF

/-- The call `s.replace(/\s+/g, ' ')`: every maximal run of white space becomes one
space.  The flag tells whether the previous character belonged to a run. -/
def replaceWhiteSpace : Bool → List Char → List Char
  | _, [] => []
  | inRun, c :: cs =>
    if isWhiteSpace c then
      if inRun then replaceWhiteSpace true cs else ' ' :: replaceWhiteSpace true cs
    else c :: replaceWhiteSpace false cs

/-- The call `s.trim()`. -/
def trim (s : List Char) : List Char :=
  ((s.dropWhile isWhiteSpace).reverse.dropWhile isWhiteSpace).reverse

/-- The call `s.split(/\s+/)`: the pieces between maximal runs of white space; the
head of the result is the piece being read.  The empty string gives one empty
piece, and a run at either end gives an empty piece there. -/
def splitWhiteSpace : Bool → List Char → List (List Char)
  | _, [] => [[]]
  | inRun, c :: cs =>
    if isWhiteSpace c then
      if inRun then splitWhiteSpace true cs else [] :: splitWhiteSpace true cs
    else
      match splitWhiteSpace false cs with
      | [] => [[c]]
      | piece :: pieces => (c :: piece) :: pieces

/-- Upper-case mapping of one character as `toUpperCase()` applies it: the ASCII
letters, and the characters whose full mapping has several letters of the ASCII
alphabet (sharp s and the Latin ligatures).  Every other character maps to
characters other than `F`, `R` and `E`, which is all that the test
`includes('FREE')` can observe; it is left in place. -/
def upperChar (c : Char) : List Char :=
  let n := c.toNat
  if n = 0xDF then ['S', 'S']
  else if n = 0xFB00 then ['F', 'F']
  else if n = 0xFB01 then ['F', 'I']
  else if n = 0xFB02 then ['F', 'L']
  else if n = 0xFB03 then ['F', 'F', 'I']
  else if n = 0xFB04 then ['F', 'F', 'L']
  else if n = 0xFB05 then ['S', 'T']
  else if n = 0xFB06 then ['S', 'T']
  else [c.toUpper]

/-- The call `s.toUpperCase()`. -/
def toUpperCase (s : List Char) : List Char :=
  s.flatMap upperChar

/-- The call `s.includes(pat)`: `pat` occurs in `s` at some position. -/
def includes : List Char → List Char → Bool
  | [], pat => pat.isPrefixOf []
  | c :: cs, pat => pat.isPrefixOf (c :: cs) || includes cs pat

/-- Value of a character as a digit, letters standing for ten and above. -/
def digitValue (c : Char) : Option Nat :=
  let n := c.toNat
  if 48 ≤ n ∧ n ≤ 57 then some (n - 48)
  else if 97 ≤ n ∧ n ≤ 122 then some (n - 87)
  else if 65 ≤ n ∧ n ≤ 90 then some (n - 55)
  else none

/-- The longest prefix of `s` made of digits of the radix, as digit values. -/
def takeDigits (radix : Nat) : List Char → List Nat
  | [] => []
  | c :: cs =>
    match digitValue c with
    | some d => if d < radix then d :: takeDigits radix cs else []
    | none => []

/-- The integer written by a list of digit values in the radix. -/
def digitsToNat (radix : Nat) (ds : List Nat) : Nat :=
  ds.foldl (fun acc d => acc * radix + d) 0

/-- The string starts with `0x` or `0X`. -/
def hasHexPrefix (s : List Char) : Bool :=
  match s with
  | z :: x :: _ => z = '0' ∧ (x = 'x' ∨ x = 'X')
  | _ => false

/-- The unsigned part of `parseInt`: a prefix `0x` or `0X` selects radix 16 and is
removed, otherwise the radix is 10; the longest prefix of digits of the radix is
converted, and without any digit the result is `NaN` (`none`). -/
def parseMagnitude (s : List Char) : Option Nat :=
  let radix := if hasHexPrefix s then 16 else 10
  let digits := takeDigits radix (if hasHexPrefix s then s.drop 2 else s)
  if digits = [] then none else some (digitsToNat radix digits)

/-- The call `parseInt(s)` without a radix; `none` stands for `NaN`.  Leading white
space is skipped, a sign is read and removed, and the rest is converted by
`parseMagnitude`.  The result is kept as the exact integer: the program only
compares it with 1 and 75 and stores it when it lies between them, and rounding a
longer numeral to a Number changes neither comparison. -/
def parseInt (s : List Char) : Option Int :=
  let s1 := s.dropWhile isWhiteSpace
  let negative : Bool := s1.head? = some '-'
  let s2 := if s1.head? = some '-' ∨ s1.head? = some '+' then s1.tail else s1
  match parseMagnitude s2 with
  | none => none
  | some v => some (if negative then -(v : Int) else (v : Int))

/-! ## `parseBingoText` -/

/-- The tokens: `text.replace(/\s+/g, ' ').trim().split(/\s+/)`. -/
def tokenize (text : List Char) : List (List Char) :=
  splitWhiteSpace false (trim (replaceWhiteSpace false text))

/-- Body of the loop over the tokens: what the token appends to `numbers`. -/
def pushToken (numbers : List Cell) (token : List Char) : List Cell :=
  if includes (toUpperCase token) ['F', 'R', 'E', 'E'] then
    numbers ++ [Cell.free]
  else
    match parseInt token with
    | some num => if num ≥ 1 ∧ num ≤ 75 then numbers ++ [Cell.num num] else numbers
    | none => numbers

/-- The array `numbers` after the loop over the tokens. -/
def extractNumbers (tokens : List (List Char)) : List Cell :=
  tokens.foldl pushToken []

/-- The count `numbers.filter(n => n === 'FREE').length`. -/
def freeCount (numbers : List Cell) : Nat :=
  (numbers.filter (fun n => n = Cell.free)).length

/-- Body of the inner loop that arranges the grid: the state is the row built so
far, `index`, and the number of `Math.random()` calls made so far. -/
def gridCell (numbers : List Cell) (rand : RandomSource) (st : List Cell × Nat × Nat)
    (col : Nat) : List Cell × Nat × Nat :=
  if h : st.2.1 < numbers.length then
    (st.1 ++ [numbers.get ⟨st.2.1, h⟩], st.2.1 + 1, st.2.2)
  else
    let range := columnRanges.getD col (0, 0)
    (st.1 ++ [Cell.num (randomInt range.1 range.2 (rand st.2.2))], st.2.1, st.2.2 + 1)

/-- Body of the outer loop that arranges the grid: `grid[row] = []` followed by
the loop over the five columns. -/
def gridRow (numbers : List Cell) (rand : RandomSource) (st : Grid × Nat × Nat)
    (_row : Nat) : Grid × Nat × Nat :=
  let r := (List.range 5).foldl (gridCell numbers rand) ([], st.2)
  (st.1 ++ [r.1], r.2)

/-- The accepted branch: the values of `numbers` laid out row by row. -/
def arrangeGrid (numbers : List Cell) (rand : RandomSource) : Grid :=
  ((List.range 5).foldl (gridRow numbers rand) ([], 0, 0)).1

/-- The values emitted for a text: `numbers` after the loop over its tokens. -/
def emittedValues (text : String) : List Cell :=
  extractNumbers (tokenize text.toList)

/-- The function `parseBingoText(text)` on a string, run against a random source.
On a string no statement of the `try` block throws, so the `catch` branch is not
taken. -/
def parseBingoText (text : String) (rand : RandomSource) : Grid :=
  let numbers := emittedValues text
  if numbers.length ≥ 20 ∧ freeCount numbers = 1 then
    arrangeGrid numbers rand
  else
    getDefaultBingoCard rand

/-- The cell of a grid at a row and a column, when there is one. -/
def cellAt (g : Grid) (r c : Nat) : Option Cell :=
  (g.getD r []).get? c

/-- A constant random source, every call giving one half. -/
def halfSource : RandomSource :=
  fun _ => ⟨1 / 2, by norm_num, by norm_num, by decide!⟩

/-- The text of the worked example: 24 numbers and one FREE. -/
def exampleText : String :=
  "1 2 3 4 5 16 17 18 19 20 31 32 33 FREE 35 46 47 48 49 50 61 62 63 64 65"

/-! ## Closed forms used in the proofs -/

/-- The range of column `col` in the table. -/
def columnRange (col : Nat) : Int × Int := columnRanges.getD col (0, 0)

/-- A cell drawn for column `col` from the `k`-th result of the random source. -/
def drawCell (rand : RandomSource) (col k : Nat) : Cell :=
  Cell.num (randomInt (columnRange col).1 (columnRange col).2 (rand k))

/-- The cell `(r, c)` of the default card, in closed form: the centre is FREE,
the cells before it use the draw of their row-major position and the cells after
it the draw before that. -/
def defaultCellAt (rand : RandomSource) (r c : Nat) : Cell :=
  if r = 2 ∧ c = 2 then Cell.free
  else drawCell rand c (if 5 * r + c < 12 then 5 * r + c else 5 * r + c - 1)

/-- A five by five grid given by a function of the row and the column. -/
def tabulate (f : Nat → Nat → Cell) : Grid :=
  (List.range 5).map fun r => (List.range 5).map (f r)

/-- The cell at row-major position `p` and column `col` of an arranged grid, in
closed form: the `p`-th emitted value when there is one, otherwise a draw for the
column from the next unused result of the random source. -/
def fillCellAt (numbers : List Cell) (rand : RandomSource) (p col : Nat) : Cell :=
  if h : p < numbers.length then numbers.get ⟨p, h⟩
  else drawCell rand col (p - numbers.length)

/-- The ranges of the columns as the specification lists them: column 0 holds
1..15, column 1 holds 16..30, column 2 holds 31..45, column 3 holds 46..60 and
column 4 holds 61..75. -/
def inColumnRange (c : Nat) (n : Int) : Prop :=
  (c = 0 ∧ 1 ≤ n ∧ n ≤ 15) ∨ (c = 1 ∧ 16 ≤ n ∧ n ≤ 30) ∨ (c = 2 ∧ 31 ≤ n ∧ n ≤ 45) ∨
  (c = 3 ∧ 46 ≤ n ∧ n ≤ 60) ∨ (c = 4 ∧ 61 ≤ n ∧ n ≤ 75)

instance (c : Nat) (n : Int) : Decidable (inColumnRange c n) := by
  unfold inColumnRange; infer_instance

/-- A value a cell of a bingo grid may hold: FREE or an integer from 1 to 75. -/
def isBingoValue : Cell → Prop
  | Cell.free => True
  | Cell.num n => 1 ≤ n ∧ n ≤ 75

instance (cell : Cell) : Decidable (isBingoValue cell) := by
  cases cell <;> unfold isBingoValue <;> infer_instance

/-- A bingo grid: exactly 5 rows, each of exactly 5 cells, every cell FREE or an
integer from 1 to 75. -/
def IsBingoGrid (g : Grid) : Prop :=
  g.length = 5 ∧ ∀ row ∈ g, row.length = 5 ∧ ∀ cell ∈ row, isBingoValue cell

/-- What one token emits, in closed form: the value its turn of the loop appends
to `numbers`, if any. -/
def classifyToken (token : List Char) : Option Cell :=
  if includes (toUpperCase token) ['F', 'R', 'E', 'E'] then some Cell.free
  else
    match parseInt token with
    | some num => if num ≥ 1 ∧ num ≤ 75 then some (Cell.num num) else none
    | none => none

/-- A text of 22 values with its FREE in the middle: the last three cells of the
grid have to be drawn. -/
def shortText : String :=
  "1 2 3 4 5 16 17 18 19 20 31 32 FREE 34 35 46 47 48 49 50 61 62"

/-- A text of 26 values whose only FREE is the last one. -/
def longText : String :=
  "1 2 3 4 5 6 7 8 9 10 11 12 13 14 15 16 17 18 19 20 21 22 23 24 25 FREE"

/-- The four characters at the head of `s` spell FREE in some letter case. -/
def startsWithFreeAnyCase : List Char → Bool
  | f :: r :: e1 :: e2 :: _ =>
    (f = 'F' || f = 'f') && (r = 'R' || r = 'r') && (e1 = 'E' || e1 = 'e') &&
      (e2 = 'E' || e2 = 'e')
  | _ => false

/-- Number of places of `s` at which FREE occurs in some letter case. -/
def freeOccurrences : List Char → Nat
  | [] => 0
  | c :: cs => (if startsWithFreeAnyCase (c :: cs) then 1 else 0) + freeOccurrences cs

/-- The string contains the substring FREE in some letter case. -/
def containsFreeAnyCase (s : List Char) : Bool :=
  0 < freeOccurrences s

/-- A decimal digit. -/
def isDecimalDigit (c : Char) : Bool :=
  48 ≤ c.toNat && c.toNat ≤ 57

/-- The token consists only of decimal digits, at least one. -/
def isDigitString (token : List Char) : Bool :=
  !token.isEmpty && token.all isDecimalDigit

/-- The integer denoted by a string of decimal digits. -/
def decimalValue (token : List Char) : Nat :=
  token.foldl (fun acc c => acc * 10 + (c.toNat - 48)) 0

/-- The token is the decimal numeral of an integer: decimal digits, at least one,
after an optional sign. -/
def isDecimalNumeral (token : List Char) : Bool :=
  match token with
  | '-' :: ds => isDigitString ds
  | '+' :: ds => isDigitString ds
  | ds => isDigitString ds

/-- The token begins with a numeral: after the white space `parseInt` skips and an
optional sign, its first character is a decimal digit. -/
def beginsWithNumeral (token : List Char) : Bool :=
  match token.dropWhile isWhiteSpace with
  | [] => false
  | c :: cs =>
    if c = '-' ∨ c = '+' then
      match cs with
      | [] => false
      | d :: _ => isDecimalDigit d
    else isDecimalDigit c

/-- Number of tokens whose upper-cased form contains FREE: the tokens that emit
the sentinel. -/
def freeTokens (tokens : List (List Char)) : Nat :=
  (tokens.filter fun token => includes (toUpperCase token) ['F', 'R', 'E', 'E']).length

/-- A text of 25 tokens in which FREE occurs twice, inside one token. -/
def doubledFreeText : String :=
  "FREEFREE 2 3 4 5 16 17 18 19 20 31 32 33 34 35 46 47 48 49 50 61 62 63 64 65"

/-- A text of 25 tokens in which FREE occurs in no letter case; its first token
is `free` written with the ligature of two f. -/
def ligatureText : String :=
  "ﬀree 2 3 4 5 16 17 18 19 20 31 32 33 34 35 46 47 48 49 50 61 62 63 64 65"

/-- A text of 26 tokens, two of which are FREE. -/
def twoFreeText : String :=
  "1 2 3 4 5 16 17 18 19 20 31 32 FREE FREE 35 46 47 48 49 50 61 62 63 64 65 66"

/-! ## The request handler -/

/-- A JSON value, as `JSON.parse` returns it.  An object is the list of its
properties; of two properties with one key the later one stands. -/
inductive Json where
  | null : Json
  | bool (b : Bool) : Json
  | num (q : ℚ) : Json
  | str (s : String) : Json
  | arr (items : List Json) : Json
  | obj (props : List (String × Json)) : Json

/-- The value `event.body`, by what `JSON.parse(event.body)` makes of it. -/
inductive RequestBody where
  /-- No body, `undefined`: it is converted to the text `undefined`, which is not
  JSON. -/
  | undefined : RequestBody
  /-- No body, `null`: it is converted to the text `null`, the JSON of `null`. -/
  | null : RequestBody
  /-- A text that is not JSON. -/
  | invalid : RequestBody
  /-- A text that is the JSON of a value. -/
  | json (v : Json) : RequestBody

/-- The request: the fields of `event` the handler reads. -/
structure Event where
  httpMethod : String
  body : RequestBody

/-- An entry of `result.textAnnotations`. -/
structure TextEntry where
  description : String
  deriving DecidableEq, Repr

/-- What the awaited call `client.textDetection(...)` does. -/
inductive RecogniserOutcome where
  /-- The call throws or its promise rejects. -/
  | fault : RecogniserOutcome
  /-- The call resolves to a value without a first element to read
  `textAnnotations` from. -/
  | malformed : RecogniserOutcome
  /-- The call resolves to `[result]`; `textAnnotations` is absent (`none`) or the
  list of entries. -/
  | result (textAnnotations : Option (List TextEntry)) : RecogniserOutcome
  deriving DecidableEq, Repr

/-- The external collaborator: whether the credentials parse and the client is
constructed, and the outcome of text detection on the image whose base64 text is
given (`Buffer.from(s, 'base64')` followed by the call). -/
structure Collaborator where
  clientCreated : Bool
  textDetection : String → RecogniserOutcome

/-- A property value of a response body. -/
inductive BodyValue where
  | bool (b : Bool) : BodyValue
  | str (s : String) : BodyValue
  | grid (g : Grid) : BodyValue
  deriving DecidableEq, Repr

/-- The body of a response: a literal string, or `JSON.stringify` of an object
literal given by its properties in order. -/
inductive Body where
  | raw (s : String) : Body
  | stringify (props : List (String × BodyValue)) : Body
  deriving DecidableEq, Repr

/-- The object the handler returns. -/
structure Response where
  statusCode : Nat
  headers : List (String × String)
  body : Body
  deriving DecidableEq, Repr

/-- What an execution of the handler does besides returning: the steps that read
the request body or reach the collaborator or the parser, in order. -/
inductive Effect where
  /-- The statement `JSON.parse(event.body)` was evaluated. -/
  | readBody : Effect
  /-- The string was handed to `Buffer.from(_, 'base64')`. -/
  | decode (s : String) : Effect
  /-- The call `client.textDetection` was made on the image of that string and had
  that outcome. -/
  | detect (s : String) (outcome : RecogniserOutcome) : Effect
  /-- The call `parseBingoText(text)` was made. -/
  | parseText (text : String) : Effect
  deriving DecidableEq, Repr

/-- An execution of the handler: the response and the effects. -/
structure Run where
  response : Response
  trace : List Effect
  deriving DecidableEq, Repr

/-- The constant `headers`. -/
def headers : List (String × String) :=
  [("Access-Control-Allow-Origin", "*"),
   ("Access-Control-Allow-Headers", "Content-Type"),
   ("Access-Control-Allow-Methods", "POST, OPTIONS")]

/-- The call `JSON.parse(event.body)`; `none` stands for a thrown `SyntaxError`. -/
def jsonParse : RequestBody → Option Json
  | RequestBody.undefined => none
  | RequestBody.null => some Json.null
  | RequestBody.invalid => none
  | RequestBody.json v => some v

/-- The property `key` of an object given by its properties. -/
def lookupProp (key : String) (props : List (String × Json)) : Option Json :=
  (props.reverse.find? fun p => p.1 = key).map fun p => p.2

/-- The destructuring `const { imageData } = parsed`.  The outer `none` stands for
the `TypeError` thrown on `null`; the inner `none` for `undefined`, which is what
a value without the property gives. -/
def destructureImageData : Json → Option (Option Json)
  | Json.null => none
  | Json.obj props => some (lookupProp "imageData" props)
  | _ => some none

/-- Truthiness of `imageData`: `undefined`, `null`, `false`, zero and the empty
string are falsy. -/
def truthy : Option Json → Bool
  | none => false
  | some Json.null => false
  | some (Json.bool b) => b
  | some (Json.num q) => q ≠ 0
  | some (Json.str s) => s ≠ ""
  | some (Json.arr _) => true
  | some (Json.obj _) => true

/-- Removes `pre` from the head of `s`, when `s` starts with it. -/
def dropLeading : List Char → List Char → Option (List Char)
  | [], s => some s
  | _ :: _, [] => none
  | a :: pre, b :: s => if a = b then dropLeading pre s else none

/-- A character of the class `[a-z]`. -/
def isLowerLetter (c : Char) : Bool :=
  97 ≤ c.toNat && c.toNat ≤ 122

/-- The call `s.replace(/^data:image\/[a-z]+;base64,/, '')` on the characters of
`s`.  The expression matches at the start only: the text `data:image/`, one or
more letters `a` to `z`, then `;base64,`.  The letters matched are the whole run
of letters, since a shorter run is followed by a letter and not by `;`.  A match
is removed; without a match the string is unchanged. -/
def stripDataUri (s : List Char) : List Char :=
  match dropLeading "data:image/".toList s with
  | none => s
  | some rest =>
    if (rest.takeWhile isLowerLetter).isEmpty then s
    else
      match dropLeading ";base64,".toList (rest.dropWhile isLowerLetter) with
      | none => s
      | some payload => payload

/-- The string handed to `Buffer.from(_, 'base64')` for the string `imageData`. -/
def stripDataUriPrefix (imageData : String) : String :=
  String.mk (stripDataUri imageData.toList)

/-- The `try` block of the handler; `none` stands for a thrown exception. -/
def tryBlock (event : Event) (world : Collaborator) (rand : RandomSource) :
    Option Response × List Effect :=
  match jsonParse event.body with
  | none => (none, [Effect.readBody])
  | some parsed =>
    match destructureImageData parsed with
    | none => (none, [Effect.readBody])
    | some imageData =>
      if !truthy imageData then
        (some ⟨400, headers, Body.stringify [("error", BodyValue.str "No image data provided")]⟩,
          [Effect.readBody])
      else if !world.clientCreated then (none, [Effect.readBody])
      else
        match imageData with
        | some (Json.str s) =>
          let payload := stripDataUriPrefix s
          let outcome := world.textDetection payload
          let trace := [Effect.readBody, Effect.decode payload, Effect.detect payload outcome]
          match outcome with
          | RecogniserOutcome.fault => (none, trace)
          | RecogniserOutcome.malformed => (none, trace)
          | RecogniserOutcome.result detections =>
            match detections with
            | none | some [] =>
              (some ⟨200, headers, Body.stringify
                [("success", BodyValue.bool false),
                 ("error", BodyValue.str "No text detected in image"),
                 ("grid", BodyValue.grid (getDefaultBingoCard rand))]⟩, trace)
            | some (first :: _) =>
              let fullText := first.description
              let bingoGrid := parseBingoText fullText rand
              (some ⟨200, headers, Body.stringify
                [("success", BodyValue.bool true),
                 ("grid", BodyValue.grid bingoGrid),
                 ("detectedText", BodyValue.str fullText)]⟩,
                trace ++ [Effect.parseText fullText])
        | _ => (none, [Effect.readBody])

/-- The function `exports.handler`, run against a collaborator and a random
source. -/
def handler (event : Event) (world : Collaborator) (rand : RandomSource) : Run :=
  if event.httpMethod = "OPTIONS" then
    ⟨⟨200, headers, Body.raw ""⟩, []⟩
  else if event.httpMethod ≠ "POST" then
    ⟨⟨405, headers, Body.stringify [("error", BodyValue.str "Method not allowed")]⟩, []⟩
  else
    match tryBlock event world rand with
    | (some response, trace) => ⟨response, trace⟩
    | (none, trace) =>
      ⟨⟨500, headers, Body.stringify
        [("success", BodyValue.bool false),
         ("error", BodyValue.str "OCR processing failed"),
         ("grid", BodyValue.grid (getDefaultBingoCard rand))]⟩, trace⟩

/-- The response to a pre-flight request. -/
def optionsResponse : Response :=
  ⟨200, headers, Body.raw ""⟩

/-- The response to a method other than OPTIONS and POST. -/
def methodNotAllowedResponse : Response :=
  ⟨405, headers, Body.stringify [("error", BodyValue.str "Method not allowed")]⟩

/-- The response to a request without image data. -/
def noImageDataResponse : Response :=
  ⟨400, headers, Body.stringify [("error", BodyValue.str "No image data provided")]⟩

/-- The response when no text was detected. -/
def noTextResponse (rand : RandomSource) : Response :=
  ⟨200, headers, Body.stringify
    [("success", BodyValue.bool false),
     ("error", BodyValue.str "No text detected in image"),
     ("grid", BodyValue.grid (getDefaultBingoCard rand))]⟩

/-- The response of the `catch` block. -/
def failureResponse (rand : RandomSource) : Response :=
  ⟨500, headers, Body.stringify
    [("success", BodyValue.bool false),
     ("error", BodyValue.str "OCR processing failed"),
     ("grid", BodyValue.grid (getDefaultBingoCard rand))]⟩

/-- The response after a transcription `t`. -/
def successResponse (t : String) (rand : RandomSource) : Response :=
  ⟨200, headers, Body.stringify
    [("success", BodyValue.bool true),
     ("grid", BodyValue.grid (parseBingoText t rand)),
     ("detectedText", BodyValue.str t)]⟩

/-- The grid a response body carries in its property `grid`, if any. -/
def gridOf : Body → Option Grid
  | Body.raw _ => none
  | Body.stringify props =>
    match props.find? fun p => p.1 = "grid" with
    | some (_, BodyValue.grid g) => some g
    | _ => none

/-- A collaborator whose client is created and that detects no text. -/
def silentWorld : Collaborator :=
  ⟨true, fun _ => RecogniserOutcome.result (some [])⟩

/-- A collaborator whose client is created and whose call fails. -/
def failingWorld : Collaborator :=
  ⟨true, fun _ => RecogniserOutcome.fault⟩

/-- A collaborator whose client is created and that transcribes every image as
the given text. -/
def readingWorld (t : String) : Collaborator :=
  ⟨true, fun _ => RecogniserOutcome.result (some [⟨t⟩])⟩

/-- A POST request whose body is the JSON object with the single property
`imageData` holding the string. -/
def postImage (imageData : String) : Event :=
  ⟨"POST", RequestBody.json (Json.obj [("imageData", Json.str imageData)])⟩

/-- The run of the handler once text detection was called on `payload` with the
given outcome, in closed form. -/
def detectionRun (payload : String) (outcome : RecogniserOutcome) (rand : RandomSource) : Run :=
  match outcome with
  | RecogniserOutcome.fault =>
    ⟨failureResponse rand,
      [Effect.readBody, Effect.decode payload, Effect.detect payload outcome]⟩
  | RecogniserOutcome.malformed =>
    ⟨failureResponse rand,
      [Effect.readBody, Effect.decode payload, Effect.detect payload outcome]⟩
  | RecogniserOutcome.result none =>
    ⟨noTextResponse rand,
      [Effect.readBody, Effect.decode payload, Effect.detect payload outcome]⟩
  | RecogniserOutcome.result (some []) =>
    ⟨noTextResponse rand,
      [Effect.readBody, Effect.decode payload, Effect.detect payload outcome]⟩
  | RecogniserOutcome.result (some (first :: _)) =>
    ⟨successResponse first.description rand,
      [Effect.readBody, Effect.decode payload, Effect.detect payload outcome,
        Effect.parseText first.description]⟩

/-- Half the unit in the last place of the binary64 numbers just below the integer
`k`, for `k` up to 16; zero for `k ≤ 0`. -/
def halfUlpBelow (k : Int) : ℚ :=
  if k ≤ 0 then 0
  else if k ≤ 1 then 1 / 2 ^ 54
  else if k ≤ 2 then 1 / 2 ^ 53
  else if k ≤ 4 then 1 / 2 ^ 52
  else if k ≤ 8 then 1 / 2 ^ 51
  else 1 / 2 ^ 50

/-- The least product that rounds to at least the integer `k`. -/
def roundsUpFrom (k : Int) : ℚ :=
  (k : ℚ) - halfUlpBelow k

/-- The binary64 number nearest to 8/15; it lies below 8/15. -/
def nearEightFifteenths : Unit01 :=
  ⟨4803839602528529 / 2 ^ 53, by norm_num, by norm_num, by decide!⟩

/-! ## Properties -/

theorem range_five : List.range 5 = [0, 1, 2, 3, 4] := by decide

theorem roundHalfEven_ge (n : ℚ) (M : Int) (h : (M : ℚ) ≤ n) : M ≤ roundHalfEven n := by
  have hf : M ≤ Int.floor n := Int.le_floor.mpr h
  unfold roundHalfEven
  split
  · exact hf
  · split
    · omega
    · split <;> omega

theorem roundHalfEven_le (n : ℚ) (M : Int) (h : n ≤ (M : ℚ)) : roundHalfEven n ≤ M := by
  have hfl : (Int.floor n : ℚ) ≤ n := Int.floor_le n
  have hf : Int.floor n ≤ M := by
    have : (Int.floor n : ℚ) ≤ (M : ℚ) := le_trans hfl h
    exact_mod_cast this
  rcases lt_or_eq_of_le hf with hlt | heq
  · unfold roundHalfEven
    split
    · exact hf
    · split
      · omega
      · split <;> omega
  · have hn : n = (M : ℚ) := by
      rw [heq] at hfl
      exact le_antisymm h hfl
    have h0 : n - (Int.floor n : ℚ) < 1 / 2 := by
      rw [heq, hn]
      norm_num
    unfold roundHalfEven
    rw [if_pos h0]
    exact hf

theorem roundHalfEven_lt (n : ℚ) (M : Int) (h : n < (M : ℚ) - 1 / 2) :
    roundHalfEven n ≤ M - 1 := by
  have hfl : (Int.floor n : ℚ) ≤ n := Int.floor_le n
  have hf : Int.floor n ≤ M - 1 := by
    have h1 : (Int.floor n : ℚ) < (M : ℚ) := by linarith
    have h2 : Int.floor n < M := by exact_mod_cast h1
    omega
  rcases lt_or_eq_of_le hf with hlt | heq
  · unfold roundHalfEven
    split
    · exact hf
    · split
      · omega
      · split <;> omega
  · have h0 : n - (Int.floor n : ℚ) < 1 / 2 := by
      rw [heq]
      push_cast
      linarith
    unfold roundHalfEven
    rw [if_pos h0]
    exact hf

theorem roundHalfEven_tie (n : ℚ) (M : Int) (hM : M % 2 = 0) (h : (M : ℚ) - 1 / 2 ≤ n) :
    M ≤ roundHalfEven n := by
  by_cases hn : (M : ℚ) ≤ n
  · exact roundHalfEven_ge n M hn
  · have hn2 : n < (M : ℚ) := lt_of_not_le hn
    have hf : Int.floor n = M - 1 := by
      rw [Int.floor_eq_iff]
      push_cast
      constructor <;> linarith
    unfold roundHalfEven
    rw [hf]
    have h1 : ¬(n - ((M - 1 : Int) : ℚ) < 1 / 2) := by
      push_cast
      linarith
    rw [if_neg h1]
    split
    · omega
    · split <;> omega


theorem binadeExponent_le (p : ℚ) (c : Int) (hc : -1022 ≤ c) (h : p < (2 : ℚ) ^ (c + 1)) :
    binadeExponent p ≤ c := by
  unfold binadeExponent
  split
  · exact hc
  · rename_i hp
    have hp0 : 0 < p := lt_of_not_le hp
    have h2 : p < ((2 : ℕ) : ℚ) ^ (c + 1) := by exact_mod_cast h
    have := (Int.lt_zpow_iff_log_lt (by norm_num : 1 < 2) hp0).mp h2
    exact max_le (by omega) hc

theorem binadeExponent_ge (p : ℚ) (c : Int) (h : (2 : ℚ) ^ c ≤ p) : c ≤ binadeExponent p := by
  have hp0 : 0 < p := lt_of_lt_of_le (zpow_pos (by norm_num) c) h
  unfold binadeExponent
  rw [if_neg (not_le.mpr hp0)]
  have h2 : ((2 : ℕ) : ℚ) ^ c ≤ p := by exact_mod_cast h
  exact le_max_of_le_left ((Int.zpow_le_iff_le_log (by norm_num : 1 < 2) hp0).mp h2)

theorem binadeExponent_eq (p : ℚ) (c : Int) (hc : -1022 ≤ c) (h1 : (2 : ℚ) ^ c ≤ p)
    (h2 : p < (2 : ℚ) ^ (c + 1)) : binadeExponent p = c :=
  le_antisymm (binadeExponent_le p c hc h2) (binadeExponent_ge p c h1)

theorem roundDouble_eq (p : ℚ) (j : Nat) (h : binadeExponent p = 52 - (j : Int)) :
    roundDouble p = (roundHalfEven (p * 2 ^ j) : ℚ) / 2 ^ j := by
  have hu : ulp p = 1 / 2 ^ j := by
    unfold ulp
    rw [h]
    have : (52 : Int) - (j : Int) - 52 = -(j : Int) := by ring
    rw [this, zpow_neg, zpow_natCast, one_div]
  unfold roundDouble
  rw [hu]
  have : p / (1 / 2 ^ j) = p * 2 ^ j := by
    rw [div_div_eq_mul_div, div_one]
  rw [this]
  ring

theorem exists_shift (p : ℚ) (c : Int) (hc : c ≤ 52) (h : binadeExponent p ≤ c) :
    ∃ j : Nat, binadeExponent p = 52 - (j : Int) ∧ 52 - c ≤ (j : Int) :=
  ⟨(52 - binadeExponent p).toNat, by omega, by omega⟩

theorem roundDouble_ge_int (p : ℚ) (K : Int) (he : binadeExponent p ≤ 52) (h : (K : ℚ) ≤ p) :
    (K : ℚ) ≤ roundDouble p := by
  obtain ⟨j, hj, -⟩ := exists_shift p 52 (le_refl _) he
  rw [roundDouble_eq p j hj]
  have hpos : (0 : ℚ) < 2 ^ j := by positivity
  have hM : ((K * 2 ^ j : Int) : ℚ) ≤ p * 2 ^ j := by
    push_cast
    exact mul_le_mul_of_nonneg_right h hpos.le
  have := roundHalfEven_ge _ _ hM
  rw [le_div_iff₀ hpos]
  have h2 : ((K * 2 ^ j : Int) : ℚ) ≤ (roundHalfEven (p * 2 ^ j) : ℚ) := by exact_mod_cast this
  push_cast at h2
  exact h2

theorem roundDouble_le_int (p : ℚ) (K : Int) (he : binadeExponent p ≤ 52) (h : p ≤ (K : ℚ)) :
    roundDouble p ≤ (K : ℚ) := by
  obtain ⟨j, hj, -⟩ := exists_shift p 52 (le_refl _) he
  rw [roundDouble_eq p j hj]
  have hpos : (0 : ℚ) < 2 ^ j := by positivity
  have hM : p * 2 ^ j ≤ ((K * 2 ^ j : Int) : ℚ) := by
    push_cast
    exact mul_le_mul_of_nonneg_right h hpos.le
  have := roundHalfEven_le _ _ hM
  rw [div_le_iff₀ hpos]
  have h2 : (roundHalfEven (p * 2 ^ j) : ℚ) ≤ ((K * 2 ^ j : Int) : ℚ) := by exact_mod_cast this
  push_cast at h2
  exact h2


/-- Below the integer `k`, whose binade below has half unit `1 / 2 ^ d`, a result
rounds to at least `k` exactly when it is at least `k - 1 / 2 ^ d`. -/
theorem le_roundDouble_iff (k : Int) (d : Nat) (p : ℚ) (hd : 2 ≤ d) (hd2 : d ≤ 1075)
    (hk : (k : ℚ) ≤ (2 : ℚ) ^ ((54 : Int) - d))
    (hlow : (2 : ℚ) ^ ((53 : Int) - d) ≤ (k : ℚ) - 1 / 2 ^ d)
    (hbig : binadeExponent p ≤ 52) :
    (k : ℚ) ≤ roundDouble p ↔ (k : ℚ) - 1 / 2 ^ d ≤ p := by
  have hdpos : (0 : ℚ) < 2 ^ d := by positivity
  constructor
  · intro h
    by_contra hlt
    have hlt2 : p < (k : ℚ) - 1 / 2 ^ d := lt_of_not_le hlt
    have hpk : p < (2 : ℚ) ^ ((53 : Int) - d + 1) := by
      have : (53 : Int) - d + 1 = 54 - d := by ring
      rw [this]
      have : (0 : ℚ) < 1 / 2 ^ d := by positivity
      linarith
    have he := binadeExponent_le p (53 - d) (by omega) hpk
    obtain ⟨j, hj, hjd⟩ := exists_shift p (53 - d) (by omega) he
    rw [roundDouble_eq p j hj] at h
    have hpos : (0 : ℚ) < 2 ^ j := by positivity
    have hjd2 : d ≤ j + 1 := by omega
    have hpow : (2 : ℚ) ^ d ≤ 2 ^ (j + 1) := pow_le_pow_right₀ (by norm_num) hjd2
    have hhalf : (1 : ℚ) / 2 ≤ 2 ^ j / 2 ^ d := by
      rw [le_div_iff₀ hdpos]
      rw [pow_succ] at hpow
      linarith
    have hn : p * 2 ^ j < ((k * 2 ^ j : Int) : ℚ) - 1 / 2 := by
      push_cast
      have h1 : p * 2 ^ j < ((k : ℚ) - 1 / 2 ^ d) * 2 ^ j :=
        mul_lt_mul_of_pos_right hlt2 hpos
      have h2 : ((k : ℚ) - 1 / 2 ^ d) * 2 ^ j = (k : ℚ) * 2 ^ j - 2 ^ j / 2 ^ d := by ring
      linarith
    have hr := roundHalfEven_lt _ _ hn
    have hr2 : (roundHalfEven (p * 2 ^ j) : ℚ) ≤ ((k * 2 ^ j - 1 : Int) : ℚ) := by
      exact_mod_cast hr
    rw [le_div_iff₀ hpos] at h
    push_cast at hr2
    linarith
  · intro h
    by_cases hpk : (k : ℚ) ≤ p
    · exact roundDouble_ge_int p k hbig hpk
    · have hpk2 : p < (k : ℚ) := lt_of_not_le hpk
      have he : binadeExponent p = 53 - (d : Int) := by
        apply binadeExponent_eq p (53 - d) (by omega) (le_trans hlow h)
        have : (53 : Int) - d + 1 = 54 - d := by ring
        rw [this]
        linarith
      obtain ⟨j, hj⟩ : ∃ j : Nat, d = j + 1 := ⟨d - 1, by omega⟩
      have hj2 : binadeExponent p = 52 - (j : Int) := by
        rw [he, hj]
        push_cast
        ring
      rw [roundDouble_eq p j hj2]
      have hpos : (0 : ℚ) < 2 ^ j := by positivity
      have hjpos : 1 ≤ j := by omega
      have heven : (k * 2 ^ j) % 2 = 0 := by
        obtain ⟨i, hi⟩ : ∃ i : Nat, j = i + 1 := ⟨j - 1, by omega⟩
        have h2 : k * 2 ^ (i + 1) = 2 * (k * 2 ^ i) := by ring
        rw [hi, h2]
        exact Int.mul_emod_right 2 _
      have hn : ((k * 2 ^ j : Int) : ℚ) - 1 / 2 ≤ p * 2 ^ j := by
        push_cast
        have h1 : ((k : ℚ) - 1 / 2 ^ d) * 2 ^ j ≤ p * 2 ^ j :=
          mul_le_mul_of_nonneg_right h hpos.le
        have h2 : ((k : ℚ) - 1 / 2 ^ d) * 2 ^ j = (k : ℚ) * 2 ^ j - 1 / 2 := by
          rw [hj, pow_succ]
          field_simp
          ring
        linarith
      have hr := roundHalfEven_tie _ _ heven hn
      have hr2 : ((k * 2 ^ j : Int) : ℚ) ≤ (roundHalfEven (p * 2 ^ j) : ℚ) := by
        exact_mod_cast hr
      rw [le_div_iff₀ hpos]
      push_cast at hr2
      exact hr2

theorem le_roundDouble_iff_roundsUpFrom (k : Int) (p : ℚ) (h1 : 1 ≤ k) (h15 : k ≤ 15)
    (hbig : binadeExponent p ≤ 52) : (k : ℚ) ≤ roundDouble p ↔ roundsUpFrom k ≤ p := by
  unfold roundsUpFrom halfUlpBelow
  interval_cases k
  · exact le_roundDouble_iff 1 54 p (by norm_num) (by norm_num) (by norm_num) (by norm_num) hbig
  · exact le_roundDouble_iff 2 53 p (by norm_num) (by norm_num) (by norm_num) (by norm_num) hbig
  · exact le_roundDouble_iff 3 52 p (by norm_num) (by norm_num) (by norm_num) (by norm_num) hbig
  · exact le_roundDouble_iff 4 52 p (by norm_num) (by norm_num) (by norm_num) (by norm_num) hbig
  · exact le_roundDouble_iff 5 51 p (by norm_num) (by norm_num) (by norm_num) (by norm_num) hbig
  · exact le_roundDouble_iff 6 51 p (by norm_num) (by norm_num) (by norm_num) (by norm_num) hbig
  · exact le_roundDouble_iff 7 51 p (by norm_num) (by norm_num) (by norm_num) (by norm_num) hbig
  · exact le_roundDouble_iff 8 51 p (by norm_num) (by norm_num) (by norm_num) (by norm_num) hbig
  · exact le_roundDouble_iff 9 50 p (by norm_num) (by norm_num) (by norm_num) (by norm_num) hbig
  · exact le_roundDouble_iff 10 50 p (by norm_num) (by norm_num) (by norm_num) (by norm_num) hbig
  · exact le_roundDouble_iff 11 50 p (by norm_num) (by norm_num) (by norm_num) (by norm_num) hbig
  · exact le_roundDouble_iff 12 50 p (by norm_num) (by norm_num) (by norm_num) (by norm_num) hbig
  · exact le_roundDouble_iff 13 50 p (by norm_num) (by norm_num) (by norm_num) (by norm_num) hbig
  · exact le_roundDouble_iff 14 50 p (by norm_num) (by norm_num) (by norm_num) (by norm_num) hbig
  · exact le_roundDouble_iff 15 50 p (by norm_num) (by norm_num) (by norm_num) (by norm_num) hbig


theorem unit01_le (x : Unit01) : x.val ≤ 1 - 1 / 2 ^ 53 := by
  obtain ⟨x, hx0, hx1, hxd⟩ := x
  show x ≤ 1 - 1 / 2 ^ 53
  by_cases hhalf : x < 1 / 2
  · have : (1 : ℚ) / 2 ≤ 1 - 1 / 2 ^ 53 := by norm_num
    linarith
  · have hge : (1 : ℚ) / 2 ≤ x := le_of_not_lt hhalf
    have he : binadeExponent x = 52 - ((53 : Nat) : Int) := by
      have := binadeExponent_eq x (-1) (by norm_num) (by norm_num; linarith) (by norm_num; linarith)
      rw [this]
      norm_num
    have hr := roundDouble_eq x 53 he
    rw [hxd] at hr
    have hpos : (0 : ℚ) < 2 ^ 53 := by positivity
    have hm : (roundHalfEven (x * 2 ^ 53) : ℚ) = x * 2 ^ 53 := by
      rw [eq_div_iff hpos.ne'] at hr
      exact hr.symm
    have hlt : (roundHalfEven (x * 2 ^ 53) : ℚ) < ((2 ^ 53 : Int) : ℚ) := by
      rw [hm]
      push_cast
      nlinarith
    have hlt2 : roundHalfEven (x * 2 ^ 53) < 2 ^ 53 := by exact_mod_cast hlt
    have hle : roundHalfEven (x * 2 ^ 53) ≤ 2 ^ 53 - 1 := by omega
    have hle2 : (roundHalfEven (x * 2 ^ 53) : ℚ) ≤ ((2 ^ 53 - 1 : Int) : ℚ) := by
      exact_mod_cast hle
    rw [hm] at hle2
    push_cast at hle2
    rw [show (1 : ℚ) - 1 / 2 ^ 53 = (2 ^ 53 - 1) / 2 ^ 53 by norm_num, le_div_iff₀ hpos]
    norm_num at hle2 ⊢
    exact hle2


theorem binadeExponent_product (x : Unit01) : binadeExponent (x.val * 15) ≤ 52 := by
  have h1 : x.val < 1 := x.2.2.1
  have := binadeExponent_le (x.val * 15) 3 (by norm_num) (by norm_num; linarith)
  omega

theorem roundDouble_product_nonneg (x : Unit01) : (0 : ℚ) ≤ roundDouble (x.val * 15) := by
  have h0 : 0 ≤ x.val := x.2.1
  have := roundDouble_ge_int (x.val * 15) 0 (binadeExponent_product x) (by push_cast; linarith)
  exact_mod_cast this

theorem roundDouble_product_lt (x : Unit01) : roundDouble (x.val * 15) < 15 := by
  have hx := unit01_le x
  have hlt : ¬(roundsUpFrom 15 ≤ x.val * 15) := by
    unfold roundsUpFrom halfUlpBelow
    norm_num
    linarith
  have := (le_roundDouble_iff_roundsUpFrom 15 (x.val * 15) (by norm_num) (by norm_num)
    (binadeExponent_product x)).not.mpr hlt
  push_cast at this
  exact lt_of_not_le this

theorem floor_product_iff (x : Unit01) (k : Int) (h0 : 0 ≤ k) (h14 : k ≤ 14) :
    Int.floor (roundDouble (x.val * 15)) = k ↔
      roundsUpFrom k ≤ x.val * 15 ∧ x.val * 15 < roundsUpFrom (k + 1) := by
  have hbig := binadeExponent_product x
  have hupper : roundDouble (x.val * 15) < (k : ℚ) + 1 ↔ x.val * 15 < roundsUpFrom (k + 1) := by
    have := le_roundDouble_iff_roundsUpFrom (k + 1) (x.val * 15) (by omega) (by omega) hbig
    push_cast at this
    rw [← not_le, ← not_le, this]
  have hlower : (k : ℚ) ≤ roundDouble (x.val * 15) ↔ roundsUpFrom k ≤ x.val * 15 := by
    rcases lt_or_eq_of_le h0 with hpos | hzero
    · exact le_roundDouble_iff_roundsUpFrom k (x.val * 15) (by omega) (by omega) hbig
    · rw [← hzero]
      have h1 := roundDouble_product_nonneg x
      have h2 : (0 : ℚ) ≤ x.val * 15 := by
        have := x.2.1
        linarith
      have h3 : roundsUpFrom 0 = 0 := by
        unfold roundsUpFrom halfUlpBelow
        norm_num
      rw [h3]
      push_cast
      exact ⟨fun _ => h2, fun _ => h1⟩
  rw [Int.floor_eq_iff, hlower, hupper]

theorem randomInt_mem (min max : Int) (x : Unit01) (hw : max - min + 1 = 15) :
    min ≤ randomInt min max x ∧ randomInt min max x ≤ max := by
  have h0 := roundDouble_product_nonneg x
  have h1 := roundDouble_product_lt x
  have f0 : 0 ≤ Int.floor (roundDouble (x.val * 15)) := Int.floor_nonneg.mpr h0
  have f1 : Int.floor (roundDouble (x.val * 15)) < 15 := by
    apply Int.floor_lt.mpr
    exact_mod_cast h1
  unfold randomInt
  rw [hw]
  push_cast
  constructor <;> omega

theorem randomInt_eq_iff (min max : Int) (x : Unit01) (v : Int) (hw : max - min + 1 = 15)
    (h1 : min ≤ v) (h2 : v ≤ max) :
    randomInt min max x = v ↔
      roundsUpFrom (v - min) / 15 ≤ x.val ∧ x.val < roundsUpFrom (v - min + 1) / 15 := by
  have hiff := floor_product_iff x (v - min) (by omega) (by omega)
  have h15 : (0 : ℚ) < 15 := by norm_num
  rw [div_le_iff₀ h15, lt_div_iff₀ h15, ← hiff]
  unfold randomInt
  rw [hw]
  push_cast
  constructor <;> intro h <;> omega

theorem columnRange_le (col : Nat) : (columnRange col).1 ≤ (columnRange col).2 := by
  unfold columnRange columnRanges
  match col with
  | 0 | 1 | 2 | 3 | 4 => decide
  | _ + 5 => exact le_refl (0 : Int)

theorem tabulate_length (f : Nat → Nat → Cell) : (tabulate f).length = 5 := by
  simp [tabulate]

theorem tabulate_row_length (f : Nat → Nat → Cell) (row : List Cell)
    (h : row ∈ tabulate f) : row.length = 5 := by
  simp only [tabulate, List.mem_map] at h
  obtain ⟨r, -, rfl⟩ := h
  simp

theorem cellAt_tabulate (f : Nat → Nat → Cell) (r c : Nat) (hr : r < 5) (hc : c < 5) :
    cellAt (tabulate f) r c = some (f r c) := by
  unfold cellAt tabulate
  rw [range_five]
  interval_cases r <;> interval_cases c <;> rfl

theorem getDefaultBingoCard_eq (rand : RandomSource) :
    getDefaultBingoCard rand = tabulate (defaultCellAt rand) := by
  rfl

theorem gridCell_step (numbers : List Cell) (rand : RandomSource) (acc : List Cell)
    (p col : Nat) :
    gridCell numbers rand (acc, min p numbers.length, p - numbers.length) col =
      (acc ++ [fillCellAt numbers rand p col], min (p + 1) numbers.length,
        p + 1 - numbers.length) := by
  unfold gridCell fillCellAt
  by_cases h : p < numbers.length
  · have h1 : min p numbers.length = p := by omega
    have h2 : min (p + 1) numbers.length = p + 1 := by omega
    have h3 : p - numbers.length = p + 1 - numbers.length := by omega
    simp only [h1, h2, h, ← h3, dite_true]
  · have h1 : min p numbers.length = numbers.length := by omega
    have h2 : min (p + 1) numbers.length = numbers.length := by omega
    have h3 : p + 1 - numbers.length = p - numbers.length + 1 := by omega
    simp only [h1, h2, h3, h, lt_irrefl, dite_false, drawCell, columnRange]

theorem gridRow_step (numbers : List Cell) (rand : RandomSource) (acc : Grid)
    (p row : Nat) :
    gridRow numbers rand (acc, min p numbers.length, p - numbers.length) row =
      (acc ++ [(List.range 5).map fun c => fillCellAt numbers rand (p + c) c],
        min (p + 5) numbers.length, p + 5 - numbers.length) := by
  unfold gridRow
  simp only [range_five, List.foldl_cons, List.foldl_nil, gridCell_step, List.map_cons,
    List.map_nil, List.nil_append, List.append_assoc, List.singleton_append, List.cons_append,
    Nat.add_zero, Nat.add_assoc, Nat.reduceAdd]

theorem arrangeGrid_eq (numbers : List Cell) (rand : RandomSource) :
    arrangeGrid numbers rand =
      tabulate fun r c => fillCellAt numbers rand (5 * r + c) c := by
  have h0 : (([] : Grid), (0 : Nat), (0 : Nat)) =
      ([], min 0 numbers.length, 0 - numbers.length) := by simp
  unfold arrangeGrid tabulate
  rw [h0]
  simp only [range_five, List.foldl_cons, List.foldl_nil, gridRow_step, List.map_cons,
    List.map_nil, List.nil_append, List.append_assoc, List.singleton_append, List.cons_append,
    Nat.add_zero, Nat.zero_add, Nat.add_assoc, Nat.reduceAdd, Nat.reduceMul, Nat.mul_zero]

theorem drawCell_inColumnRange (rand : RandomSource) (c k : Nat) (hc : c < 5) :
    ∃ n, drawCell rand c k = Cell.num n ∧ inColumnRange c n := by
  refine ⟨_, rfl, ?_⟩
  have hw : (columnRange c).2 - (columnRange c).1 + 1 = 15 := by
    interval_cases c <;> rfl
  have h := randomInt_mem (columnRange c).1 (columnRange c).2 (rand k) hw
  unfold inColumnRange
  interval_cases c <;>
    simp only [columnRange, columnRanges, List.getD_cons_zero, List.getD_cons_succ] at h ⊢ <;>
    simp <;> omega

theorem inColumnRange_bingo (c : Nat) (n : Int) (h : inColumnRange c n) :
    isBingoValue (Cell.num n) := by
  unfold inColumnRange at h
  unfold isBingoValue
  omega

theorem cellAt_tabulate_none (f : Nat → Nat → Cell) (r c : Nat) (h : 5 ≤ r ∨ 5 ≤ c) :
    cellAt (tabulate f) r c = none := by
  unfold cellAt tabulate
  rcases Nat.lt_or_ge r 5 with hr | hr
  · have hc : 5 ≤ c := by omega
    rw [List.getD_eq_getElem?_getD, List.getElem?_map, List.getElem?_range hr]
    simp only [Option.map_some', Option.getD_some, List.get?_eq_getElem?]
    rw [List.getElem?_eq_none]
    simpa using hc
  · rw [List.getD_eq_getElem?_getD, List.getElem?_eq_none (by simpa using hr)]
    simp

theorem isBingoGrid_tabulate (f : Nat → Nat → Cell)
    (h : ∀ r c, r < 5 → c < 5 → isBingoValue (f r c)) : IsBingoGrid (tabulate f) := by
  refine ⟨tabulate_length f, ?_⟩
  intro row hrow
  refine ⟨tabulate_row_length f row hrow, ?_⟩
  simp only [tabulate, List.mem_map, List.mem_range] at hrow
  obtain ⟨r, hr, rfl⟩ := hrow
  intro cell hcell
  simp only [List.mem_map, List.mem_range] at hcell
  obtain ⟨c, hc, rfl⟩ := hcell
  exact h r c hr hc

theorem defaultCellAt_centre (rand : RandomSource) : defaultCellAt rand 2 2 = Cell.free := by
  simp [defaultCellAt]

theorem defaultCellAt_inColumnRange (rand : RandomSource) (r c : Nat) (hc : c < 5)
    (h : ¬(r = 2 ∧ c = 2)) :
    ∃ n, defaultCellAt rand r c = Cell.num n ∧ inColumnRange c n := by
  unfold defaultCellAt
  rw [if_neg h]
  exact drawCell_inColumnRange rand c _ hc

/-- Claim C3: for every random source `getDefaultBingoCard` returns a grid of
exactly 5 rows of exactly 5 cells (25 cells in all), whose cell (2,2) is FREE and
whose every other cell `(r, c)` is an integer of the range of column `c`
(0: 1..15, 1: 16..30, 2: 31..45, 3: 46..60, 4: 61..75).  The function is total,
so it never fails. -/
theorem getDefaultBingoCard_spec (rand : RandomSource) :
    (getDefaultBingoCard rand).length = 5 ∧
    (∀ row ∈ getDefaultBingoCard rand, row.length = 5) ∧
    ((getDefaultBingoCard rand).map List.length).sum = 25 ∧
    cellAt (getDefaultBingoCard rand) 2 2 = some Cell.free ∧
    ∀ r c, r < 5 → c < 5 → ¬(r = 2 ∧ c = 2) →
      ∃ n, cellAt (getDefaultBingoCard rand) r c = some (Cell.num n) ∧ inColumnRange c n := by
  rw [getDefaultBingoCard_eq]
  refine ⟨tabulate_length _, tabulate_row_length _, ?_, ?_, ?_⟩
  · simp [tabulate, range_five]
  · rw [cellAt_tabulate _ 2 2 (by decide) (by decide), defaultCellAt_centre]
  · intro r c hr hc hne
    obtain ⟨n, hn, hrange⟩ := defaultCellAt_inColumnRange rand r c hc hne
    exact ⟨n, by rw [cellAt_tabulate _ r c hr hc, hn], hrange⟩

theorem pushToken_eq (numbers : List Cell) (token : List Char) :
    pushToken numbers token = numbers ++ (classifyToken token).toList := by
  unfold pushToken classifyToken
  split
  · rfl
  · split
    · split <;> simp
    · simp

theorem foldl_pushToken (tokens : List (List Char)) (numbers : List Cell) :
    tokens.foldl pushToken numbers = numbers ++ tokens.filterMap classifyToken := by
  induction tokens generalizing numbers with
  | nil => simp
  | cons t ts ih =>
    rw [List.foldl_cons, ih, pushToken_eq]
    cases h : classifyToken t <;> simp [List.filterMap_cons, h]

theorem extractNumbers_eq (tokens : List (List Char)) :
    extractNumbers tokens = tokens.filterMap classifyToken := by
  unfold extractNumbers
  rw [foldl_pushToken, List.nil_append]

theorem classifyToken_bingo (token : List Char) (cell : Cell)
    (h : classifyToken token = some cell) : isBingoValue cell := by
  unfold classifyToken at h
  split at h
  · cases h; trivial
  · split at h
    · split at h
      · cases h; rename_i hr; exact hr
      · cases h
    · cases h

theorem extractNumbers_bingo (tokens : List (List Char)) (cell : Cell)
    (h : cell ∈ extractNumbers tokens) : isBingoValue cell := by
  rw [extractNumbers_eq, List.mem_filterMap] at h
  obtain ⟨t, -, ht⟩ := h
  exact classifyToken_bingo t cell ht

theorem fillCellAt_of_lt (numbers : List Cell) (rand : RandomSource) (p col : Nat)
    (h : p < numbers.length) : some (fillCellAt numbers rand p col) = numbers.get? p := by
  unfold fillCellAt
  rw [dif_pos h, List.get?_eq_get h]

theorem fillCellAt_of_ge (numbers : List Cell) (rand : RandomSource) (p col : Nat)
    (h : numbers.length ≤ p) :
    fillCellAt numbers rand p col = drawCell rand col (p - numbers.length) := by
  unfold fillCellAt
  rw [dif_neg (by omega)]

theorem fillCellAt_bingo (numbers : List Cell) (rand : RandomSource) (p col : Nat)
    (hcol : col < 5) (hnum : ∀ cell ∈ numbers, isBingoValue cell) :
    isBingoValue (fillCellAt numbers rand p col) := by
  by_cases h : p < numbers.length
  · unfold fillCellAt
    rw [dif_pos h]
    exact hnum _ (List.get_mem numbers p h)
  · rw [fillCellAt_of_ge numbers rand p col (by omega)]
    obtain ⟨n, hn, hr⟩ := drawCell_inColumnRange rand col (p - numbers.length) hcol
    rw [hn]
    exact inColumnRange_bingo col n hr

theorem parseBingoText_accepted (text : String) (rand : RandomSource)
    (hlen : 20 ≤ (emittedValues text).length) (hfree : freeCount (emittedValues text) = 1) :
    parseBingoText text rand =
      tabulate fun r c => fillCellAt (emittedValues text) rand (5 * r + c) c := by
  unfold parseBingoText
  simp only [ge_iff_le, hlen, hfree, and_self, if_true]
  exact arrangeGrid_eq _ _

theorem parseBingoText_rejected (text : String) (rand : RandomSource)
    (h : (emittedValues text).length < 20 ∨ freeCount (emittedValues text) ≠ 1) :
    parseBingoText text rand = getDefaultBingoCard rand := by
  unfold parseBingoText
  have : ¬((emittedValues text).length ≥ 20 ∧ freeCount (emittedValues text) = 1) := by
    rintro ⟨h1, h2⟩
    rcases h with h | h
    · omega
    · exact h h2
  simp only [this, if_false]

theorem tabulate_congr (f g : Nat → Nat → Cell)
    (h : ∀ r c, r < 5 → c < 5 → f r c = g r c) : tabulate f = tabulate g := by
  unfold tabulate
  apply List.map_congr_left
  intro r hr
  apply List.map_congr_left
  intro c hc
  exact h r c (List.mem_range.mp hr) (List.mem_range.mp hc)

theorem isBingoGrid_default (rand : RandomSource) : IsBingoGrid (getDefaultBingoCard rand) := by
  rw [getDefaultBingoCard_eq]
  apply isBingoGrid_tabulate
  intro r c _ hc
  by_cases h : r = 2 ∧ c = 2
  · obtain ⟨rfl, rfl⟩ := h
    rw [defaultCellAt_centre]
    trivial
  · obtain ⟨n, hn, hr⟩ := defaultCellAt_inColumnRange rand r c hc h
    rw [hn]
    exact inColumnRange_bingo c n hr

/-- Claim C1: when the emitted values of a text are at least 20 and hold exactly
one FREE, `parseBingoText` returns, for every random source, a grid of 5 rows of
5 cells whose cell `(r, c)` is the emitted value of index `5 * r + c` whenever
there is one; the grid has no cell outside the 5 rows and 5 columns, so emitted
values after the 25th are not placed. -/
theorem parseBingoText_row_major (text : String) (rand : RandomSource)
    (hlen : 20 ≤ (emittedValues text).length) (hfree : freeCount (emittedValues text) = 1) :
    (parseBingoText text rand).length = 5 ∧
    (∀ row ∈ parseBingoText text rand, row.length = 5) ∧
    (∀ r c, r < 5 → c < 5 → 5 * r + c < (emittedValues text).length →
      cellAt (parseBingoText text rand) r c = (emittedValues text).get? (5 * r + c)) ∧
    ∀ r c, 5 ≤ r ∨ 5 ≤ c → cellAt (parseBingoText text rand) r c = none := by
  rw [parseBingoText_accepted text rand hlen hfree]
  refine ⟨tabulate_length _, tabulate_row_length _, ?_, ?_⟩
  · intro r c hr hc hp
    rw [cellAt_tabulate _ r c hr hc]
    exact fillCellAt_of_lt _ rand _ c hp
  · intro r c h
    exact cellAt_tabulate_none _ r c h

/-- Witness of C1 on the worked example of the specification (24 numbers and one
FREE): the text is accepted, and for every random source row 0 is
`[1, 2, 3, 4, 5]`, cell (2,3) is FREE and row 4 is `[61, 62, 63, 64, 65]`. -/
theorem parseBingoText_row_major_witness :
    20 ≤ (emittedValues exampleText).length ∧ freeCount (emittedValues exampleText) = 1 ∧
    (∀ rand : RandomSource,
      (parseBingoText exampleText rand).get? 0 =
        some [Cell.num 1, Cell.num 2, Cell.num 3, Cell.num 4, Cell.num 5] ∧
      cellAt (parseBingoText exampleText rand) 2 3 = some Cell.free ∧
      (parseBingoText exampleText rand).get? 4 =
        some [Cell.num 61, Cell.num 62, Cell.num 63, Cell.num 64, Cell.num 65]) := by
  have hlen : 20 ≤ (emittedValues exampleText).length := by decide!
  have hfree : freeCount (emittedValues exampleText) = 1 := by decide!
  have hvalues : emittedValues exampleText =
      [Cell.num 1, Cell.num 2, Cell.num 3, Cell.num 4, Cell.num 5,
       Cell.num 16, Cell.num 17, Cell.num 18, Cell.num 19, Cell.num 20,
       Cell.num 31, Cell.num 32, Cell.num 33, Cell.free, Cell.num 35,
       Cell.num 46, Cell.num 47, Cell.num 48, Cell.num 49, Cell.num 50,
       Cell.num 61, Cell.num 62, Cell.num 63, Cell.num 64, Cell.num 65] := by decide!
  refine ⟨hlen, hfree, fun rand => ?_⟩
  obtain ⟨-, -, hcell, -⟩ := parseBingoText_row_major exampleText rand hlen hfree
  refine ⟨?_, ?_, ?_⟩
  · rw [parseBingoText_accepted exampleText rand hlen hfree, hvalues]
    rfl
  · rw [hcell 2 3 (by decide) (by decide) (by rw [hvalues]; decide), hvalues]
    rfl
  · rw [parseBingoText_accepted exampleText rand hlen hfree, hvalues]
    rfl

theorem cellAt_default_centre (rand : RandomSource) :
    cellAt (getDefaultBingoCard rand) 2 2 = some Cell.free := by
  rw [getDefaultBingoCard_eq, cellAt_tabulate _ 2 2 (by decide) (by decide),
    defaultCellAt_centre]

theorem cellAt_default_other (rand : RandomSource) (r c : Nat) (hr : r < 5) (hc : c < 5)
    (hne : ¬(r = 2 ∧ c = 2)) :
    ∃ n, cellAt (getDefaultBingoCard rand) r c = some (Cell.num n) ∧ inColumnRange c n := by
  obtain ⟨n, hn, hrange⟩ := defaultCellAt_inColumnRange rand r c hc hne
  exact ⟨n, by rw [getDefaultBingoCard_eq, cellAt_tabulate _ r c hr hc, hn], hrange⟩

theorem parseBingoText_full (text : String) (rand rand2 : RandomSource)
    (h25 : 25 ≤ (emittedValues text).length) (hfree : freeCount (emittedValues text) = 1) :
    parseBingoText text rand2 = parseBingoText text rand := by
  rw [parseBingoText_accepted text rand (by omega) hfree,
    parseBingoText_accepted text rand2 (by omega) hfree]
  apply tabulate_congr
  intro r c hr hc
  have hp : 5 * r + c < (emittedValues text).length := by omega
  unfold fillCellAt
  rw [dif_pos hp, dif_pos hp]

/-- Claim C2: when the emitted values of a text are fewer than 20 or do not hold
exactly one FREE, `parseBingoText` returns exactly the grid `getDefaultBingoCard`
returns for the random source, which does not depend on the text (a full
discard); its cell (2,2) is FREE and every other cell `(r, c)` is an integer of
the range of column `c`. -/
theorem parseBingoText_fallback (text : String) (rand : RandomSource)
    (h : (emittedValues text).length < 20 ∨ freeCount (emittedValues text) ≠ 1) :
    parseBingoText text rand = getDefaultBingoCard rand ∧
    cellAt (parseBingoText text rand) 2 2 = some Cell.free ∧
    ∀ r c, r < 5 → c < 5 → ¬(r = 2 ∧ c = 2) →
      ∃ n, cellAt (parseBingoText text rand) r c = some (Cell.num n) ∧ inColumnRange c n := by
  rw [parseBingoText_rejected text rand h]
  exact ⟨rfl, cellAt_default_centre rand, cellAt_default_other rand⟩

/-- Witness of C2: a text of 19 values with one FREE is one short of the gate and
is discarded, whatever it holds. -/
theorem parseBingoText_fallback_witness :
    (emittedValues "1 2 3 4 5 16 17 18 19 20 31 32 FREE 34 35 46 47 48 49").length < 20 ∧
    parseBingoText "1 2 3 4 5 16 17 18 19 20 31 32 FREE 34 35 46 47 48 49" halfSource =
      getDefaultBingoCard halfSource :=
  ⟨by decide!,
    (parseBingoText_fallback "1 2 3 4 5 16 17 18 19 20 31 32 FREE 34 35 46 47 48 49" halfSource
      (Or.inl (by decide!))).1⟩

/-- Claim C5: for every text and every random source the value returned by
`parseBingoText` is a bingo grid (exactly 5 rows, each of exactly 5 cells, every
cell FREE or an integer from 1 to 75), and so is every result of
`getDefaultBingoCard`. -/
theorem parseBingoText_isBingoGrid (text : String) (rand : RandomSource) :
    IsBingoGrid (parseBingoText text rand) ∧ IsBingoGrid (getDefaultBingoCard rand) := by
  refine ⟨?_, isBingoGrid_default rand⟩
  by_cases h : 20 ≤ (emittedValues text).length ∧ freeCount (emittedValues text) = 1
  · rw [parseBingoText_accepted text rand h.1 h.2]
    apply isBingoGrid_tabulate
    intro r c _ hc
    exact fillCellAt_bingo _ rand _ c hc fun cell hcell => extractNumbers_bingo _ cell hcell
  · rw [parseBingoText_rejected text rand (by omega)]
    exact isBingoGrid_default rand

/-- Claim C9: in an accepted parse with `n` emitted values, every cell `(r, c)` of
the grid with `5 * r + c ≥ n` lies in row 4 and holds an integer of the range of
column `c` (so it is neither FREE nor blank); and when `n ≥ 25` every cell is an
emitted value and the grid is the same for every random source. -/
theorem parseBingoText_fill (text : String) (rand : RandomSource)
    (hlen : 20 ≤ (emittedValues text).length) (hfree : freeCount (emittedValues text) = 1) :
    (∀ r c, r < 5 → c < 5 → (emittedValues text).length ≤ 5 * r + c →
      r = 4 ∧ ∃ v, cellAt (parseBingoText text rand) r c = some (Cell.num v) ∧
        inColumnRange c v) ∧
    (25 ≤ (emittedValues text).length →
      (∀ r c, r < 5 → c < 5 →
        cellAt (parseBingoText text rand) r c = (emittedValues text).get? (5 * r + c)) ∧
      ∀ rand2 : RandomSource, parseBingoText text rand2 = parseBingoText text rand) := by
  constructor
  · intro r c hr hc hp
    refine ⟨by omega, ?_⟩
    rw [parseBingoText_accepted text rand hlen hfree, cellAt_tabulate _ r c hr hc,
      fillCellAt_of_ge _ rand _ c hp]
    obtain ⟨v, hv, hrange⟩ := drawCell_inColumnRange rand c (5 * r + c - (emittedValues text).length) hc
    exact ⟨v, by rw [hv], hrange⟩
  · intro h25
    constructor
    · intro r c hr hc
      rw [parseBingoText_accepted text rand hlen hfree, cellAt_tabulate _ r c hr hc]
      exact fillCellAt_of_lt _ rand _ c (by omega)
    · intro rand2
      exact parseBingoText_full text rand rand2 h25 hfree

/-- Witness of C9 on a text of 22 values: the parse is accepted, and with the
random source that always gives one half the cells (4,2), (4,3) and (4,4) are
drawn as 38, 53 and 68. -/
theorem parseBingoText_fill_witness :
    20 ≤ (emittedValues shortText).length ∧ freeCount (emittedValues shortText) = 1 ∧
    (emittedValues shortText).length = 22 ∧
    (∃ v, cellAt (parseBingoText shortText halfSource) 4 2 = some (Cell.num v) ∧
      inColumnRange 2 v) ∧
    (parseBingoText shortText halfSource).get? 4 =
      some [Cell.num 61, Cell.num 62, Cell.num 38, Cell.num 53, Cell.num 68] := by
  have hlen : 20 ≤ (emittedValues shortText).length := by decide!
  have hfree : freeCount (emittedValues shortText) = 1 := by decide!
  have h22 : (emittedValues shortText).length = 22 := by decide!
  refine ⟨hlen, hfree, h22, ?_, ?_⟩
  · exact ((parseBingoText_fill shortText halfSource hlen hfree).1 4 2 (by decide) (by decide)
      (by rw [h22])).2
  · decide!

/-- Evaluation for claim C4: the text of 26 values whose only FREE is the last one
passes the gate (26 values, one FREE), and the grid returned for it holds the 25
numbers before the FREE and no FREE cell, for every random source. -/
theorem parseBingoText_drops_free (rand : RandomSource) :
    (emittedValues longText).length = 26 ∧ freeCount (emittedValues longText) = 1 ∧
    parseBingoText longText rand =
      [[Cell.num 1, Cell.num 2, Cell.num 3, Cell.num 4, Cell.num 5],
       [Cell.num 6, Cell.num 7, Cell.num 8, Cell.num 9, Cell.num 10],
       [Cell.num 11, Cell.num 12, Cell.num 13, Cell.num 14, Cell.num 15],
       [Cell.num 16, Cell.num 17, Cell.num 18, Cell.num 19, Cell.num 20],
       [Cell.num 21, Cell.num 22, Cell.num 23, Cell.num 24, Cell.num 25]] ∧
    freeCount (parseBingoText longText rand).flatten = 0 := by
  have hlen : (emittedValues longText).length = 26 := by decide!
  have hfree : freeCount (emittedValues longText) = 1 := by decide!
  have hgrid : parseBingoText longText rand = parseBingoText longText halfSource :=
    parseBingoText_full longText halfSource rand (by omega) hfree
  refine ⟨hlen, hfree, ?_, ?_⟩
  · rw [hgrid]
    decide!
  · rw [hgrid]
    decide!

theorem includes_of_isPrefixOf (s pat : List Char) (h : pat.isPrefixOf s = true) :
    includes s pat = true := by
  cases s with
  | nil => simpa [includes] using h
  | cons c cs => simp [includes, h]

theorem includes_cons (c : Char) (s pat : List Char) (h : includes s pat = true) :
    includes (c :: s) pat = true := by
  simp [includes, h]

theorem includes_append_left (a s pat : List Char) (h : includes s pat = true) :
    includes (a ++ s) pat = true := by
  induction a with
  | nil => simpa using h
  | cons c cs ih => exact includes_cons c _ pat ih

theorem toUpperCase_cons (c : Char) (cs : List Char) :
    toUpperCase (c :: cs) = upperChar c ++ toUpperCase cs := by
  simp [toUpperCase]

theorem isPrefixOf_toUpperCase (s : List Char) (h : startsWithFreeAnyCase s = true) :
    ['F', 'R', 'E', 'E'].isPrefixOf (toUpperCase s) = true := by
  match s, h with
  | f :: r :: e1 :: e2 :: rest, h =>
    simp only [startsWithFreeAnyCase, Bool.and_eq_true, Bool.or_eq_true, decide_eq_true_eq] at h
    obtain ⟨⟨⟨hf, hr⟩, he1⟩, he2⟩ := h
    have uF : upperChar 'F' = ['F'] := by decide
    have uf : upperChar 'f' = ['F'] := by decide
    have uR : upperChar 'R' = ['R'] := by decide
    have ur : upperChar 'r' = ['R'] := by decide
    have uE : upperChar 'E' = ['E'] := by decide
    have ue : upperChar 'e' = ['E'] := by decide
    have h4 : upperChar f ++ (upperChar r ++ (upperChar e1 ++ (upperChar e2 ++ toUpperCase rest)))
        = 'F' :: 'R' :: 'E' :: 'E' :: toUpperCase rest := by
      rcases hf with rfl | rfl <;> rcases hr with rfl | rfl <;> rcases he1 with rfl | rfl <;>
        rcases he2 with rfl | rfl <;> simp only [uF, uf, uR, ur, uE, ue] <;> rfl
    rw [toUpperCase_cons, toUpperCase_cons, toUpperCase_cons, toUpperCase_cons, h4]
    simp [List.isPrefixOf]

theorem includes_toUpperCase (s : List Char) (h : containsFreeAnyCase s = true) :
    includes (toUpperCase s) ['F', 'R', 'E', 'E'] = true := by
  unfold containsFreeAnyCase at h
  induction s with
  | nil => simp [freeOccurrences] at h
  | cons c cs ih =>
    by_cases hs : startsWithFreeAnyCase (c :: cs) = true
    · exact includes_of_isPrefixOf _ _ (isPrefixOf_toUpperCase _ hs)
    · simp only [freeOccurrences, hs, Bool.false_eq_true, if_false, Nat.zero_add] at h
      rw [toUpperCase_cons]
      exact includes_append_left _ _ _ (ih h)

theorem isDecimalDigit_bounds (c : Char) (h : isDecimalDigit c = true) :
    48 ≤ c.toNat ∧ c.toNat ≤ 57 := by
  simpa [isDecimalDigit] using h

theorem isWhiteSpace_of_digit (c : Char) (h : isDecimalDigit c = true) :
    isWhiteSpace c = false := by
  have hb := isDecimalDigit_bounds c h
  simp only [isWhiteSpace, Bool.or_eq_false_iff, Bool.and_eq_false_iff, decide_eq_false_iff_not]
  omega

theorem digitValue_of_digit (c : Char) (h : isDecimalDigit c = true) :
    digitValue c = some (c.toNat - 48) := by
  have hb := isDecimalDigit_bounds c h
  simp [digitValue, hb]

theorem upperChar_of_digit (c : Char) (h : isDecimalDigit c = true) : upperChar c = [c] := by
  have hb := isDecimalDigit_bounds c h
  have h1 : ¬(c.toNat ≥ 97 ∧ c.toNat ≤ 122) := by omega
  simp only [upperChar, Char.toUpper, h1, if_false]
  repeat rw [if_neg (by omega)]

theorem toUpperCase_of_digits (token : List Char) (h : token.all isDecimalDigit = true) :
    toUpperCase token = token := by
  induction token with
  | nil => rfl
  | cons c cs ih =>
    simp only [List.all_cons, Bool.and_eq_true] at h
    rw [toUpperCase_cons, upperChar_of_digit c h.1, ih h.2]
    rfl

theorem takeDigits_of_digits (token : List Char) (h : token.all isDecimalDigit = true) :
    takeDigits 10 token = token.map fun c => c.toNat - 48 := by
  induction token with
  | nil => rfl
  | cons c cs ih =>
    simp only [List.all_cons, Bool.and_eq_true] at h
    have hb := isDecimalDigit_bounds c h.1
    have hlt : c.toNat - 48 < 10 := by omega
    simp only [takeDigits, digitValue_of_digit c h.1, hlt, if_true, ih h.2, List.map_cons]

theorem digitsToNat_map (token : List Char) :
    digitsToNat 10 (token.map fun c => c.toNat - 48) = decimalValue token := by
  unfold digitsToNat decimalValue
  rw [List.foldl_map]

theorem includes_free_of_digits (token : List Char) (h : token.all isDecimalDigit = true) :
    includes token ['F', 'R', 'E', 'E'] = false := by
  induction token with
  | nil => rfl
  | cons c cs ih =>
    simp only [List.all_cons, Bool.and_eq_true] at h
    have hb := isDecimalDigit_bounds c h.1
    have hne : ('F' == c) = false := by
      rw [beq_eq_false_iff_ne]
      rintro rfl
      revert hb
      decide
    simp [includes, List.isPrefixOf, hne, ih h.2]

theorem hasHexPrefix_of_not_x (c : Char) (cs : List Char)
    (h : ∀ x xs, cs = x :: xs → x ≠ 'x' ∧ x ≠ 'X') : hasHexPrefix (c :: cs) = false := by
  match cs, h with
  | [], _ => rfl
  | x :: xs, h =>
    obtain ⟨h1, h2⟩ := h x xs rfl
    simp [hasHexPrefix, h1, h2]

theorem parseMagnitude_of_digits (token : List Char) (h : isDigitString token = true) :
    parseMagnitude token = some (decimalValue token) := by
  simp only [isDigitString, Bool.and_eq_true, Bool.not_eq_true', List.isEmpty_eq_false] at h
  obtain ⟨hne, hall⟩ := h
  match token, hne, hall with
  | c :: cs, _, hall =>
    have hhex : hasHexPrefix (c :: cs) = false := by
      apply hasHexPrefix_of_not_x
      intro x xs hx
      rw [hx] at hall
      simp only [List.all_cons, Bool.and_eq_true] at hall
      have hb := isDecimalDigit_bounds x hall.2.1
      constructor <;> (rintro rfl; revert hb; decide)
    unfold parseMagnitude
    simp only [hhex, Bool.false_eq_true, if_false]
    rw [takeDigits_of_digits _ hall, digitsToNat_map]
    simp

theorem parseInt_of_digits (token : List Char) (h : isDigitString token = true) :
    parseInt token = some (decimalValue token : Int) := by
  have hmag := parseMagnitude_of_digits token h
  simp only [isDigitString, Bool.and_eq_true, Bool.not_eq_true', List.isEmpty_eq_false] at h
  obtain ⟨hne, hall⟩ := h
  match token, hne, hall, hmag with
  | c :: cs, _, hall, hmag =>
    have hc : isDecimalDigit c = true := by
      simp only [List.all_cons, Bool.and_eq_true] at hall
      exact hall.1
    have hb := isDecimalDigit_bounds c hc
    have hminus : c ≠ '-' := by rintro rfl; revert hb; decide
    have hplus : c ≠ '+' := by rintro rfl; revert hb; decide
    have hws : List.dropWhile isWhiteSpace (c :: cs) = c :: cs := by
      simp [List.dropWhile, isWhiteSpace_of_digit c hc]
    unfold parseInt
    simp only [hws, List.head?_cons, Option.some.injEq, hminus, hplus, or_self, if_false,
      decide_False, hmag, Bool.false_eq_true]

theorem pushToken_of_digits (numbers : List Cell) (token : List Char)
    (h : isDigitString token = true) :
    pushToken numbers token =
      if 1 ≤ decimalValue token ∧ decimalValue token ≤ 75 then
        numbers ++ [Cell.num (decimalValue token)]
      else numbers := by
  have hall : token.all isDecimalDigit = true := by
    simp only [isDigitString, Bool.and_eq_true] at h
    exact h.2
  unfold pushToken
  rw [toUpperCase_of_digits token hall, includes_free_of_digits token hall,
    parseInt_of_digits token h]
  simp only [Bool.false_eq_true, if_false, ge_iff_le]
  by_cases hr : 1 ≤ decimalValue token ∧ decimalValue token ≤ 75
  · have hr2 : (1 : Int) ≤ (decimalValue token : Int) ∧ (decimalValue token : Int) ≤ 75 := by
      omega
    rw [if_pos hr, if_pos hr2]
  · have hr2 : ¬((1 : Int) ≤ (decimalValue token : Int) ∧ (decimalValue token : Int) ≤ 75) := by
      omega
    rw [if_neg hr, if_neg hr2]

theorem containsFreeAnyCase_of_digits (token : List Char)
    (h : token.all isDecimalDigit = true) : containsFreeAnyCase token = false := by
  cases hc : containsFreeAnyCase token with
  | false => rfl
  | true =>
    have h1 := includes_toUpperCase token hc
    rw [toUpperCase_of_digits token h, includes_free_of_digits token h] at h1
    cases h1

/-- Claim C6: classification of one token by the loop of `parseBingoText`.
(i) A token that contains FREE in some letter case appends the sentinel FREE and
nothing else.  (ii) A token made only of decimal digits, denoting `n`, does not
contain FREE, and appends `n` when `1 ≤ n ≤ 75` and nothing otherwise (`n = 0` or
`n ≥ 76`).  Each token appends at most one value, and `numbers` is the
concatenation, in token order, of what the tokens append. -/
theorem pushToken_classification :
    (∀ (numbers : List Cell) (token : List Char), containsFreeAnyCase token = true →
      pushToken numbers token = numbers ++ [Cell.free]) ∧
    (∀ (numbers : List Cell) (token : List Char), isDigitString token = true →
      containsFreeAnyCase token = false ∧
      pushToken numbers token =
        if 1 ≤ decimalValue token ∧ decimalValue token ≤ 75 then
          numbers ++ [Cell.num (decimalValue token)]
        else numbers) ∧
    (∀ (numbers : List Cell) (token : List Char),
      pushToken numbers token = numbers ∨
        ∃ cell, pushToken numbers token = numbers ++ [cell]) ∧
    (∀ tokens : List (List Char),
      extractNumbers tokens = tokens.flatMap fun token => pushToken [] token) := by
  refine ⟨?_, ?_, ?_, ?_⟩
  · intro numbers token h
    unfold pushToken
    rw [if_pos (includes_toUpperCase token h)]
  · intro numbers token h
    refine ⟨containsFreeAnyCase_of_digits token ?_, pushToken_of_digits numbers token h⟩
    simp only [isDigitString, Bool.and_eq_true] at h
    exact h.2
  · intro numbers token
    rw [pushToken_eq]
    cases classifyToken token with
    | none => left; simp
    | some cell => right; exact ⟨cell, by simp⟩
  · intro tokens
    rw [extractNumbers_eq]
    induction tokens with
    | nil => rfl
    | cons t ts ih =>
      rw [List.flatMap_cons, ← ih, pushToken_eq]
      cases h : classifyToken t <;> simp [List.filterMap_cons, h]

/-- Examples for C6: the tokens `free`, `Free`, `*FREE*` and `12FREE` each append
FREE; `75` and `007` append 75 and 7; `0` and `76` append nothing. -/
theorem pushToken_classification_witness :
    pushToken [] "free".toList = [Cell.free] ∧ pushToken [] "Free".toList = [Cell.free] ∧
    pushToken [] "*FREE*".toList = [Cell.free] ∧ pushToken [] "12FREE".toList = [Cell.free] ∧
    pushToken [] "75".toList = [Cell.num 75] ∧ pushToken [] "007".toList = [Cell.num 7] ∧
    pushToken [] "0".toList = [] ∧ pushToken [] "76".toList = [] :=
  ⟨pushToken_classification.1 [] "free".toList (by decide!), by decide!, by decide!,
    by decide!, by decide!, by decide!, by decide!, by decide!⟩

/-- Counterexample to claim C7: the tokens `12abc`, `3.7`, `0x1F` and `7,` are not
decimal numerals and contain no FREE in any letter case, yet they append 12, 3,
31 and 7, because `parseInt` reads the longest numeric prefix (hexadecimal after
`0x`); a text holding `12abc` does not emit what it emits without it.  The token
`ﬀree` holds no FREE in any letter case either, and appends FREE, because
`toUpperCase` expands the ligature to `FF`. -/
theorem pushToken_nonnumeric_counterexample :
    (isDecimalNumeral "12abc".toList = false ∧ containsFreeAnyCase "12abc".toList = false ∧
      pushToken [] "12abc".toList = [Cell.num 12]) ∧
    (isDecimalNumeral "3.7".toList = false ∧ containsFreeAnyCase "3.7".toList = false ∧
      pushToken [] "3.7".toList = [Cell.num 3]) ∧
    (isDecimalNumeral "0x1F".toList = false ∧ containsFreeAnyCase "0x1F".toList = false ∧
      pushToken [] "0x1F".toList = [Cell.num 31]) ∧
    (isDecimalNumeral "7,".toList = false ∧ containsFreeAnyCase "7,".toList = false ∧
      pushToken [] "7,".toList = [Cell.num 7]) ∧
    (isDecimalNumeral "ﬀree".toList = false ∧ containsFreeAnyCase "ﬀree".toList = false ∧
      pushToken [] "ﬀree".toList = [Cell.free]) ∧
    emittedValues "5 12abc 6" = [Cell.num 5, Cell.num 12, Cell.num 6] ∧
    emittedValues "5 6" = [Cell.num 5, Cell.num 6] := by
  decide!

theorem takeDigits_of_not_digit (s : List Char)
    (h : ∀ c cs, s = c :: cs → isDecimalDigit c = false) : takeDigits 10 s = [] := by
  match s, h with
  | [], _ => rfl
  | c :: cs, h =>
    have hc : ¬(48 ≤ c.toNat ∧ c.toNat ≤ 57) := by
      have := h c cs rfl
      simpa [isDecimalDigit] using this
    unfold takeDigits digitValue
    simp only [hc, if_false]
    by_cases h1 : 97 ≤ c.toNat ∧ c.toNat ≤ 122
    · have : ¬(c.toNat - 87 < 10) := by omega
      simp only [h1, and_self, if_true, this, if_false]
    · by_cases h2 : 65 ≤ c.toNat ∧ c.toNat ≤ 90
      · have : ¬(c.toNat - 55 < 10) := by omega
        simp only [h1, if_false, h2, and_self, if_true, this]
      · simp only [h1, if_false, h2]

theorem parseMagnitude_of_not_digit (s : List Char)
    (h : ∀ c cs, s = c :: cs → isDecimalDigit c = false) : parseMagnitude s = none := by
  have hhex : hasHexPrefix s = false := by
    match s, h with
    | [], _ => rfl
    | [_], _ => rfl
    | z :: x :: _, h =>
      have hz : z ≠ '0' := by
        intro hz
        have := h z _ rfl
        rw [hz] at this
        revert this
        decide
      simp [hasHexPrefix, hz]
  unfold parseMagnitude
  simp only [hhex, Bool.false_eq_true, if_false, takeDigits_of_not_digit s h, if_true]

theorem parseInt_of_not_numeral (token : List Char) (h : beginsWithNumeral token = false) :
    parseInt token = none := by
  unfold beginsWithNumeral at h
  unfold parseInt
  generalize List.dropWhile isWhiteSpace token = s1 at h ⊢
  match s1, h with
  | [], _ => rfl
  | c :: cs, h =>
    by_cases hsign : c = '-' ∨ c = '+'
    · simp only [hsign, if_true] at h
      have hs2 : ∀ d ds, cs = d :: ds → isDecimalDigit d = false := by
        intro d ds hd
        rw [hd] at h
        exact h
      simp only [List.head?_cons, Option.some.injEq, hsign, if_true, List.tail_cons,
        parseMagnitude_of_not_digit cs hs2]
    · simp only [hsign, if_false] at h
      have hs2 : ∀ d ds, c :: cs = d :: ds → isDecimalDigit d = false := by
        intro d ds hd
        cases hd
        exact h
      simp only [List.head?_cons, Option.some.injEq, hsign, if_false,
        parseMagnitude_of_not_digit (c :: cs) hs2]

/-- Claim C7 as amended: a token whose upper-cased form does not contain FREE and
from whose start `parseInt` does not read an integer between 1 and 75 (it gives
`NaN`, or a value below 1 or above 75) appends nothing, and the emitted sequence
is the same as if the token were absent from the token list; this covers every
token that is not numeric except those with a numeric prefix between 1 and 75.
Those are the only exception: when `parseInt` reads `v` with `1 ≤ v ≤ 75` the
token appends `v`. -/
theorem pushToken_dropped (token : List Char)
    (hfree : includes (toUpperCase token) ['F', 'R', 'E', 'E'] = false) :
    ((∀ v, parseInt token = some v → v < 1 ∨ 75 < v) →
      (∀ numbers : List Cell, pushToken numbers token = numbers) ∧
      ∀ before after : List (List Char),
        extractNumbers (before ++ token :: after) = extractNumbers (before ++ after)) ∧
    (∀ v, parseInt token = some v → 1 ≤ v → v ≤ 75 →
      ∀ numbers : List Cell, pushToken numbers token = numbers ++ [Cell.num v]) ∧
    (beginsWithNumeral token = false → parseInt token = none) := by
  refine ⟨fun hparse => ?_, fun v hv h1 h75 numbers => ?_, parseInt_of_not_numeral token⟩
  · have hclass : classifyToken token = none := by
      unfold classifyToken
      rw [hfree]
      cases hp : parseInt token with
      | none => rfl
      | some v =>
        have hv := hparse v hp
        have hn : ¬(v ≥ 1 ∧ v ≤ 75) := by omega
        simp only [Bool.false_eq_true, if_false, hn]
    constructor
    · intro numbers
      rw [pushToken_eq, hclass]
      simp
    · intro before after
      rw [extractNumbers_eq, extractNumbers_eq, List.filterMap_append, List.filterMap_append,
        List.filterMap_cons, hclass]
  · unfold pushToken
    rw [hfree, hv]
    have hy : v ≥ 1 ∧ v ≤ 75 := ⟨h1, h75⟩
    simp only [Bool.false_eq_true, if_false, hy, and_self, if_true]

/-- Witness of the amended C7: the tokens `99abc`, `0x`, `0.5`, `100%` and `B12`
are not numeric, hold no FREE, and `parseInt` reads 99, `NaN`, 0, 100 and `NaN`
from them; each appends nothing. -/
theorem pushToken_dropped_witness :
    (isDecimalNumeral "99abc".toList = false ∧ parseInt "99abc".toList = some 99 ∧
      pushToken [Cell.num 5] "99abc".toList = [Cell.num 5]) ∧
    (isDecimalNumeral "0x".toList = false ∧ parseInt "0x".toList = none ∧
      pushToken [Cell.num 5] "0x".toList = [Cell.num 5]) ∧
    (isDecimalNumeral "0.5".toList = false ∧ parseInt "0.5".toList = some 0 ∧
      pushToken [Cell.num 5] "0.5".toList = [Cell.num 5]) ∧
    (isDecimalNumeral "100%".toList = false ∧ parseInt "100%".toList = some 100 ∧
      pushToken [Cell.num 5] "100%".toList = [Cell.num 5]) ∧
    (isDecimalNumeral "B12".toList = false ∧ parseInt "B12".toList = none ∧
      pushToken [Cell.num 5] "B12".toList = [Cell.num 5]) := by
  have key : ∀ (token : List Char) (r : Option Int),
      includes (toUpperCase token) ['F', 'R', 'E', 'E'] = false → parseInt token = r →
      (∀ v, r = some v → v < 1 ∨ 75 < v) →
      pushToken [Cell.num 5] token = [Cell.num 5] := by
    intro token r hfree hr hout
    exact ((pushToken_dropped token hfree).1 (fun v hv => hout v (hr ▸ hv))).1 _
  refine ⟨⟨by decide!, by decide!, ?_⟩, ⟨by decide!, by decide!, ?_⟩, ⟨by decide!, by decide!, ?_⟩,
    ⟨by decide!, by decide!, ?_⟩, ⟨by decide!, by decide!, ?_⟩⟩
  · exact key _ (some 99) (by decide!) (by decide!) (by intro v hv; cases hv; omega)
  · exact key _ none (by decide!) (by decide!) (by intro v hv; cases hv)
  · exact key _ (some 0) (by decide!) (by decide!) (by intro v hv; cases hv; omega)
  · exact key _ (some 100) (by decide!) (by decide!) (by intro v hv; cases hv; omega)
  · exact key _ none (by decide!) (by decide!) (by intro v hv; cases hv)

theorem freeCount_cons (cell : Cell) (numbers : List Cell) :
    freeCount (cell :: numbers) = (if cell = Cell.free then 1 else 0) + freeCount numbers := by
  unfold freeCount
  by_cases h : cell = Cell.free
  · simp [List.filter_cons, h, Nat.add_comm]
  · simp [List.filter_cons, h]

theorem classifyToken_free_iff (token : List Char) :
    classifyToken token = some Cell.free ↔
      includes (toUpperCase token) ['F', 'R', 'E', 'E'] = true := by
  unfold classifyToken
  constructor
  · intro h
    by_contra hn
    rw [if_neg hn] at h
    split at h
    · split at h <;> cases h
    · cases h
  · intro h
    rw [if_pos h]

theorem freeCount_extractNumbers (tokens : List (List Char)) :
    freeCount (extractNumbers tokens) = freeTokens tokens := by
  rw [extractNumbers_eq]
  unfold freeTokens
  induction tokens with
  | nil => rfl
  | cons t ts ih =>
    by_cases hf : includes (toUpperCase t) ['F', 'R', 'E', 'E'] = true
    · have hc := (classifyToken_free_iff t).mpr hf
      rw [List.filterMap_cons, hc, freeCount_cons, if_pos rfl, ih, List.filter_cons, if_pos hf,
        List.length_cons, Nat.add_comm]
    · rw [List.filter_cons, if_neg hf, ← ih, List.filterMap_cons]
      cases hc : classifyToken t with
      | none => rfl
      | some cell =>
        have hne : cell ≠ Cell.free := by
          rintro rfl
          exact hf ((classifyToken_free_iff t).mp hc)
        simp only [freeCount_cons, if_neg hne, Nat.zero_add]

/-- Counterexample to claim C8.  In `doubledFreeText` the substring FREE occurs
twice, but inside one token: one FREE is emitted among 25 values, the parse is
accepted, cell (0,0) is the FREE of the text and the grid is not a default card
for any random source.  In `ligatureText` FREE occurs in no letter case, and the
token written with the ligature still emits FREE: the parse is accepted too. -/
theorem parseBingoText_free_occurrences_counterexample :
    (freeOccurrences doubledFreeText.toList = 2 ∧
      (emittedValues doubledFreeText).length = 25 ∧
      freeCount (emittedValues doubledFreeText) = 1 ∧
      ∀ rand : RandomSource,
        cellAt (parseBingoText doubledFreeText rand) 0 0 = some Cell.free ∧
        cellAt (parseBingoText doubledFreeText rand) 0 1 = some (Cell.num 2) ∧
        parseBingoText doubledFreeText rand ≠ getDefaultBingoCard rand) ∧
    (freeOccurrences ligatureText.toList = 0 ∧
      (emittedValues ligatureText).length = 25 ∧
      freeCount (emittedValues ligatureText) = 1 ∧
      ∀ rand : RandomSource,
        cellAt (parseBingoText ligatureText rand) 0 0 = some Cell.free ∧
        parseBingoText ligatureText rand ≠ getDefaultBingoCard rand) := by
  have key : ∀ (text : String) (rand : RandomSource),
      cellAt (parseBingoText text halfSource) 0 0 = some Cell.free →
      parseBingoText text rand = parseBingoText text halfSource →
      cellAt (parseBingoText text rand) 0 0 = some Cell.free ∧
        parseBingoText text rand ≠ getDefaultBingoCard rand := by
    intro text rand h0 heq
    rw [heq]
    refine ⟨h0, fun hd => ?_⟩
    obtain ⟨n, hn, -⟩ := cellAt_default_other rand 0 0 (by decide) (by decide) (by decide)
    rw [← hd, h0] at hn
    cases hn
  have hd1 : freeCount (emittedValues doubledFreeText) = 1 := by decide!
  have hl1 : freeCount (emittedValues ligatureText) = 1 := by decide!
  have hd25 : (emittedValues doubledFreeText).length = 25 := by decide!
  have hl25 : (emittedValues ligatureText).length = 25 := by decide!
  refine ⟨⟨by decide!, hd25, hd1, fun rand => ?_⟩, ⟨by decide!, hl25, hl1, fun rand => ?_⟩⟩
  · have heq := parseBingoText_full doubledFreeText halfSource rand (by omega) hd1
    obtain ⟨h1, h2⟩ := key doubledFreeText rand (by decide!) heq
    refine ⟨h1, ?_, h2⟩
    rw [heq]
    decide!
  · exact key ligatureText rand (by decide!)
      (parseBingoText_full ligatureText halfSource rand (by omega) hl1)

/-- Claim C8 as amended: when the number of tokens of the text whose upper-cased
form contains FREE is zero or at least two, `parseBingoText` falls back, whatever
the number of numeric tokens: it returns the grid of `getDefaultBingoCard`, which
holds no value of the text. -/
theorem parseBingoText_free_tokens (text : String) (rand : RandomSource)
    (h : freeTokens (tokenize text.toList) = 0 ∨ 2 ≤ freeTokens (tokenize text.toList)) :
    freeCount (emittedValues text) = freeTokens (tokenize text.toList) ∧
    parseBingoText text rand = getDefaultBingoCard rand := by
  have hcount : freeCount (emittedValues text) = freeTokens (tokenize text.toList) :=
    freeCount_extractNumbers _
  refine ⟨hcount, parseBingoText_rejected text rand (Or.inr ?_)⟩
  rw [hcount]
  omega

/-- Witness of the amended C8: 26 tokens, 24 of them numbers and two of them FREE,
give the default card. -/
theorem parseBingoText_free_tokens_witness :
    2 ≤ freeTokens (tokenize twoFreeText.toList) ∧
    (emittedValues twoFreeText).length = 26 ∧
    parseBingoText twoFreeText halfSource = getDefaultBingoCard halfSource :=
  ⟨by decide!, by decide!,
    (parseBingoText_free_tokens twoFreeText halfSource (Or.inr (by decide!))).2⟩

theorem replaceWhiteSpace_true_blank (s : List Char) (h : ∀ c ∈ s, isWhiteSpace c = true) :
    replaceWhiteSpace true s = [] := by
  induction s with
  | nil => rfl
  | cons c cs ih =>
    have hc : isWhiteSpace c = true := h c (List.mem_cons_self c cs)
    simp only [replaceWhiteSpace, hc, if_true]
    exact ih fun d hd => h d (List.mem_cons_of_mem c hd)

theorem replaceWhiteSpace_false_blank (s : List Char) (h : ∀ c ∈ s, isWhiteSpace c = true) :
    replaceWhiteSpace false s = [] ∨ replaceWhiteSpace false s = [' '] := by
  cases s with
  | nil => left; rfl
  | cons c cs =>
    right
    have hc : isWhiteSpace c = true := h c (List.mem_cons_self c cs)
    simp only [replaceWhiteSpace, hc, if_true, Bool.false_eq_true, if_false]
    rw [replaceWhiteSpace_true_blank cs fun d hd => h d (List.mem_cons_of_mem c hd)]

theorem tokenize_blank (s : List Char) (h : ∀ c ∈ s, isWhiteSpace c = true) :
    tokenize s = [[]] := by
  unfold tokenize
  rcases replaceWhiteSpace_false_blank s h with h0 | h1
  · rw [h0]; decide
  · rw [h1]; decide

/-- Claim C10: for the empty string and for every text made only of white space
the split gives the single empty token, which emits nothing; with 0 emitted
values the gate fails, and `parseBingoText` returns the default card, whose cell
(2,2) is FREE. -/
theorem parseBingoText_blank (text : String) (rand : RandomSource)
    (h : ∀ c ∈ text.toList, isWhiteSpace c = true) :
    tokenize text.toList = [[]] ∧
    emittedValues text = [] ∧
    ¬((emittedValues text).length ≥ 20 ∧ freeCount (emittedValues text) = 1) ∧
    parseBingoText text rand = getDefaultBingoCard rand ∧
    cellAt (parseBingoText text rand) 2 2 = some Cell.free := by
  have htok := tokenize_blank text.toList h
  have hemit : emittedValues text = [] := by
    unfold emittedValues
    rw [htok]
    decide
  have hfall : parseBingoText text rand = getDefaultBingoCard rand :=
    parseBingoText_rejected text rand (Or.inl (by rw [hemit]; decide))
  refine ⟨htok, hemit, ?_, hfall, ?_⟩
  · rw [hemit]; decide
  · rw [hfall]
    exact cellAt_default_centre rand

/-- Witness of C10: the empty string, and a text of a space, a tab, a line feed
and a space. -/
theorem parseBingoText_blank_witness :
    (emittedValues "" = [] ∧ parseBingoText "" halfSource = getDefaultBingoCard halfSource ∧
      cellAt (parseBingoText "" halfSource) 2 2 = some Cell.free) ∧
    ((∀ c ∈ " \t\n ".toList, isWhiteSpace c = true) ∧
      emittedValues " \t\n " = [] ∧
      cellAt (parseBingoText " \t\n " halfSource) 2 2 = some Cell.free) := by
  have h0 := parseBingoText_blank "" halfSource (by decide)
  have hw : ∀ c ∈ " \t\n ".toList, isWhiteSpace c = true := by decide
  have h1 := parseBingoText_blank " \t\n " halfSource hw
  exact ⟨⟨h0.2.1, h0.2.2.2.1, h0.2.2.2.2⟩, ⟨hw, h1.2.1, h1.2.2.2.2⟩⟩

theorem handler_of_options (event : Event) (world : Collaborator) (rand : RandomSource)
    (h : event.httpMethod = "OPTIONS") : handler event world rand = ⟨optionsResponse, []⟩ := by
  unfold handler
  rw [if_pos h]
  rfl

theorem handler_of_other (event : Event) (world : Collaborator) (rand : RandomSource)
    (h1 : event.httpMethod ≠ "OPTIONS") (h2 : event.httpMethod ≠ "POST") :
    handler event world rand = ⟨methodNotAllowedResponse, []⟩ := by
  unfold handler
  rw [if_neg h1, if_pos h2]
  rfl

theorem handler_of_post (event : Event) (world : Collaborator) (rand : RandomSource)
    (h : event.httpMethod = "POST") :
    handler event world rand =
      match tryBlock event world rand with
      | (some response, trace) => ⟨response, trace⟩
      | (none, trace) => ⟨failureResponse rand, trace⟩ := by
  have h1 : event.httpMethod ≠ "OPTIONS" := by rw [h]; decide
  unfold handler
  rw [if_neg h1, if_neg (not_not.mpr h)]
  rfl

theorem tryBlock_of_parse_error (event : Event) (world : Collaborator) (rand : RandomSource)
    (h : jsonParse event.body = none) : tryBlock event world rand = (none, [Effect.readBody]) := by
  unfold tryBlock
  rw [h]

theorem tryBlock_of_null (event : Event) (world : Collaborator) (rand : RandomSource)
    (h : jsonParse event.body = some Json.null) :
    tryBlock event world rand = (none, [Effect.readBody]) := by
  unfold tryBlock
  rw [h]
  rfl

theorem tryBlock_of_falsy (event : Event) (world : Collaborator) (rand : RandomSource)
    (parsed : Json) (imageData : Option Json) (h : jsonParse event.body = some parsed)
    (hd : destructureImageData parsed = some imageData) (hf : truthy imageData = false) :
    tryBlock event world rand = (some noImageDataResponse, [Effect.readBody]) := by
  unfold tryBlock
  rw [h]
  simp only [hd, hf, Bool.not_false, if_true]
  rfl

theorem tryBlock_of_no_client (event : Event) (world : Collaborator) (rand : RandomSource)
    (parsed : Json) (imageData : Option Json) (h : jsonParse event.body = some parsed)
    (hd : destructureImageData parsed = some imageData) (ht : truthy imageData = true)
    (hc : world.clientCreated = false) :
    tryBlock event world rand = (none, [Effect.readBody]) := by
  unfold tryBlock
  rw [h]
  simp only [hd, ht, hc, Bool.not_true, Bool.false_eq_true, if_false, Bool.not_false, if_true]

theorem tryBlock_of_string (event : Event) (world : Collaborator) (rand : RandomSource)
    (parsed : Json) (s : String) (h : jsonParse event.body = some parsed)
    (hd : destructureImageData parsed = some (some (Json.str s))) (hs : s ≠ "")
    (hc : world.clientCreated = true) :
    tryBlock event world rand =
      match world.textDetection (stripDataUriPrefix s) with
      | RecogniserOutcome.fault =>
        (none, [Effect.readBody, Effect.decode (stripDataUriPrefix s),
          Effect.detect (stripDataUriPrefix s) RecogniserOutcome.fault])
      | RecogniserOutcome.malformed =>
        (none, [Effect.readBody, Effect.decode (stripDataUriPrefix s),
          Effect.detect (stripDataUriPrefix s) RecogniserOutcome.malformed])
      | RecogniserOutcome.result none =>
        (some (noTextResponse rand), [Effect.readBody, Effect.decode (stripDataUriPrefix s),
          Effect.detect (stripDataUriPrefix s) (RecogniserOutcome.result none)])
      | RecogniserOutcome.result (some []) =>
        (some (noTextResponse rand), [Effect.readBody, Effect.decode (stripDataUriPrefix s),
          Effect.detect (stripDataUriPrefix s) (RecogniserOutcome.result (some []))])
      | RecogniserOutcome.result (some (first :: rest)) =>
        (some (successResponse first.description rand),
          [Effect.readBody, Effect.decode (stripDataUriPrefix s),
            Effect.detect (stripDataUriPrefix s) (RecogniserOutcome.result (some (first :: rest))),
            Effect.parseText first.description]) := by
  have ht : truthy (some (Json.str s)) = true := by simp [truthy, hs]
  unfold tryBlock
  rw [h]
  simp only [hd, ht, hc, Bool.not_true, Bool.false_eq_true, if_false]
  cases hout : world.textDetection (stripDataUriPrefix s) with
  | fault => rfl
  | malformed => rfl
  | result detections =>
    match detections with
    | none => rfl
    | some [] => rfl
    | some (first :: rest) => rfl

theorem tryBlock_of_not_string (event : Event) (world : Collaborator) (rand : RandomSource)
    (parsed : Json) (imageData : Option Json) (h : jsonParse event.body = some parsed)
    (hd : destructureImageData parsed = some imageData) (ht : truthy imageData = true)
    (hn : ∀ s, imageData ≠ some (Json.str s)) :
    tryBlock event world rand = (none, [Effect.readBody]) := by
  unfold tryBlock
  rw [h]
  simp only [hd, ht, Bool.not_true, Bool.false_eq_true, if_false]
  split
  · rfl
  · match imageData, hn with
    | some (Json.str s), hn => exact absurd rfl (hn s)
    | none, _ => rfl
    | some Json.null, _ => rfl
    | some (Json.bool _), _ => rfl
    | some (Json.num _), _ => rfl
    | some (Json.arr _), _ => rfl
    | some (Json.obj _), _ => rfl

theorem handler_of_string (event : Event) (world : Collaborator) (rand : RandomSource)
    (parsed : Json) (s : String) (hm : event.httpMethod = "POST")
    (h : jsonParse event.body = some parsed)
    (hd : destructureImageData parsed = some (some (Json.str s))) (hs : s ≠ "")
    (hc : world.clientCreated = true) :
    handler event world rand =
      detectionRun (stripDataUriPrefix s) (world.textDetection (stripDataUriPrefix s)) rand := by
  rw [handler_of_post event world rand hm, tryBlock_of_string event world rand parsed s h hd hs hc]
  unfold detectionRun
  cases hout : world.textDetection (stripDataUriPrefix s) with
  | fault => rfl
  | malformed => rfl
  | result detections =>
    match detections with
    | none => rfl
    | some [] => rfl
    | some (first :: rest) => rfl

theorem truthy_string (s : String) (h : truthy (some (Json.str s)) = true) : s ≠ "" := by
  simpa [truthy] using h

/-- Every run of the handler has one of five forms. -/
theorem handler_cases (event : Event) (world : Collaborator) (rand : RandomSource) :
    (event.httpMethod = "OPTIONS" ∧ handler event world rand = ⟨optionsResponse, []⟩) ∨
    (event.httpMethod ≠ "OPTIONS" ∧ event.httpMethod ≠ "POST" ∧
      handler event world rand = ⟨methodNotAllowedResponse, []⟩) ∨
    (event.httpMethod = "POST" ∧
      handler event world rand = ⟨noImageDataResponse, [Effect.readBody]⟩) ∨
    (event.httpMethod = "POST" ∧
      handler event world rand = ⟨failureResponse rand, [Effect.readBody]⟩) ∨
    (event.httpMethod = "POST" ∧ ∃ parsed s, jsonParse event.body = some parsed ∧
      destructureImageData parsed = some (some (Json.str s)) ∧ s ≠ "" ∧
      world.clientCreated = true ∧
      handler event world rand =
        detectionRun (stripDataUriPrefix s) (world.textDetection (stripDataUriPrefix s)) rand) := by
  by_cases h1 : event.httpMethod = "OPTIONS"
  · exact Or.inl ⟨h1, handler_of_options event world rand h1⟩
  by_cases h2 : event.httpMethod = "POST"
  swap
  · exact Or.inr (Or.inl ⟨h1, h2, handler_of_other event world rand h1 h2⟩)
  have hpost := handler_of_post event world rand h2
  cases hp : jsonParse event.body with
  | none =>
    rw [tryBlock_of_parse_error event world rand hp] at hpost
    exact Or.inr (Or.inr (Or.inr (Or.inl ⟨h2, hpost⟩)))
  | some parsed =>
    cases hd : destructureImageData parsed with
    | none =>
      have hnull : parsed = Json.null := by
        cases parsed <;> simp [destructureImageData] at hd
        rfl
      rw [hnull] at hp
      rw [tryBlock_of_null event world rand hp] at hpost
      exact Or.inr (Or.inr (Or.inr (Or.inl ⟨h2, hpost⟩)))
    | some imageData =>
      cases ht : truthy imageData with
      | false =>
        rw [tryBlock_of_falsy event world rand parsed imageData hp hd ht] at hpost
        exact Or.inr (Or.inr (Or.inl ⟨h2, hpost⟩))
      | true =>
        cases hc : world.clientCreated with
        | false =>
          rw [tryBlock_of_no_client event world rand parsed imageData hp hd ht hc] at hpost
          exact Or.inr (Or.inr (Or.inr (Or.inl ⟨h2, hpost⟩)))
        | true =>
          by_cases hstr : ∃ s, imageData = some (Json.str s)
          · obtain ⟨s, rfl⟩ := hstr
            exact Or.inr (Or.inr (Or.inr (Or.inr ⟨h2, parsed, s, rfl, hd, truthy_string s ht, rfl,
              handler_of_string event world rand parsed s h2 hp hd (truthy_string s ht) hc⟩)))
          · have hn : ∀ s, imageData ≠ some (Json.str s) := fun s hs => hstr ⟨s, hs⟩
            rw [tryBlock_of_not_string event world rand parsed imageData hp hd ht hn] at hpost
            exact Or.inr (Or.inr (Or.inr (Or.inl ⟨h2, hpost⟩)))

theorem detect_mem_detectionRun (payload p : String) (outcome o : RecogniserOutcome)
    (rand : RandomSource) (h : Effect.detect p o ∈ (detectionRun payload outcome rand).trace) :
    p = payload ∧ o = outcome := by
  unfold detectionRun at h
  split at h <;> simpa using h

/-- If the trace of a run records a call of text detection, the run is the closed
form for the payload and the outcome recorded. -/
theorem handler_of_detect (event : Event) (world : Collaborator) (rand : RandomSource)
    (payload : String) (outcome : RecogniserOutcome)
    (h : Effect.detect payload outcome ∈ (handler event world rand).trace) :
    handler event world rand = detectionRun payload outcome rand := by
  rcases handler_cases event world rand with ⟨-, hr⟩ | ⟨-, -, hr⟩ | ⟨-, hr⟩ | ⟨-, hr⟩ |
    ⟨-, parsed, s, -, -, -, -, hr⟩
  · rw [hr] at h; simp at h
  · rw [hr] at h; simp at h
  · rw [hr] at h; simp at h
  · rw [hr] at h; simp at h
  · rw [hr] at h
    obtain ⟨hp, ho⟩ := detect_mem_detectionRun _ _ _ _ rand h
    rw [hr, hp, ho]

/-- Claim C11: for every POST request with a truthy `imageData` for which text
detection returns a list whose first entry has description `t`, the handler
returns status 200 with body `{success: true, grid: parseBingoText(t),
detectedText: t}`.  This holds for every `t`: when the gate rejects `t` the grid
is the fallback grid and `success` is still true. -/
theorem handler_success (event : Event) (world : Collaborator) (rand : RandomSource)
    (payload : String) (first : TextEntry) (rest : List TextEntry)
    (_hpost : event.httpMethod = "POST")
    (_himage : ∃ parsed imageData, jsonParse event.body = some parsed ∧
      destructureImageData parsed = some imageData ∧ truthy imageData = true)
    (hcall : Effect.detect payload (RecogniserOutcome.result (some (first :: rest))) ∈
      (handler event world rand).trace) :
    (handler event world rand).response =
      ⟨200, headers, Body.stringify
        [("success", BodyValue.bool true),
         ("grid", BodyValue.grid (parseBingoText first.description rand)),
         ("detectedText", BodyValue.str first.description)]⟩ ∧
    ((emittedValues first.description).length < 20 ∨
        freeCount (emittedValues first.description) ≠ 1 →
      (handler event world rand).response =
        ⟨200, headers, Body.stringify
          [("success", BodyValue.bool true),
           ("grid", BodyValue.grid (getDefaultBingoCard rand)),
           ("detectedText", BodyValue.str first.description)]⟩) := by
  have hrun := handler_of_detect event world rand payload _ hcall
  have hresp : (handler event world rand).response = successResponse first.description rand := by
    rw [hrun]
    rfl
  refine ⟨hresp, fun hrej => ?_⟩
  rw [hresp, successResponse, parseBingoText_rejected first.description rand hrej]

/-- Witness of C11: a POST of a PNG data URI, transcribed as the worked example
and as the empty text. -/
theorem handler_success_witness :
    (handler (postImage "data:image/png;base64,AAAA") (readingWorld exampleText)
        halfSource).response =
      ⟨200, headers, Body.stringify
        [("success", BodyValue.bool true),
         ("grid", BodyValue.grid (parseBingoText exampleText halfSource)),
         ("detectedText", BodyValue.str exampleText)]⟩ ∧
    (handler (postImage "data:image/png;base64,AAAA") (readingWorld "") halfSource).response =
      ⟨200, headers, Body.stringify
        [("success", BodyValue.bool true),
         ("grid", BodyValue.grid (getDefaultBingoCard halfSource)),
         ("detectedText", BodyValue.str "")]⟩ :=
  ⟨(handler_success (postImage "data:image/png;base64,AAAA") (readingWorld exampleText)
      halfSource "AAAA" ⟨exampleText⟩ [] rfl ⟨_, _, rfl, rfl, by decide⟩ (by decide!)).1,
    (handler_success (postImage "data:image/png;base64,AAAA") (readingWorld "")
      halfSource "AAAA" ⟨""⟩ [] rfl ⟨_, _, rfl, rfl, by decide⟩ (by decide!)).2
      (Or.inl (by decide!))⟩

/-- Claim C12: for every POST request with a truthy `imageData`, if the call of
text detection raises a fault (or resolves to a malformed response), the handler
returns: status 500 with body `{success: false, error: "OCR processing failed",
grid: g}` where `g` is the grid of `getDefaultBingoCard`. -/
theorem handler_fault (event : Event) (world : Collaborator) (rand : RandomSource)
    (payload : String) (outcome : RecogniserOutcome)
    (_hpost : event.httpMethod = "POST")
    (_himage : ∃ parsed imageData, jsonParse event.body = some parsed ∧
      destructureImageData parsed = some imageData ∧ truthy imageData = true)
    (hcall : Effect.detect payload outcome ∈ (handler event world rand).trace)
    (hfault : outcome = RecogniserOutcome.fault ∨ outcome = RecogniserOutcome.malformed) :
    (handler event world rand).response =
      ⟨500, headers, Body.stringify
        [("success", BodyValue.bool false),
         ("error", BodyValue.str "OCR processing failed"),
         ("grid", BodyValue.grid (getDefaultBingoCard rand))]⟩ := by
  rw [handler_of_detect event world rand payload outcome hcall]
  rcases hfault with rfl | rfl <;> rfl

/-- Witness of C12: a POST of a PNG data URI against a collaborator whose call
fails. -/
theorem handler_fault_witness :
    (handler (postImage "data:image/png;base64,AAAA") failingWorld halfSource).response =
      ⟨500, headers, Body.stringify
        [("success", BodyValue.bool false),
         ("error", BodyValue.str "OCR processing failed"),
         ("grid", BodyValue.grid (getDefaultBingoCard halfSource))]⟩ :=
  handler_fault (postImage "data:image/png;base64,AAAA") failingWorld halfSource "AAAA"
    RecogniserOutcome.fault rfl ⟨_, _, rfl, rfl, by decide⟩ (by decide!) (Or.inl rfl)

/-- Claim C13: for every POST request with a truthy `imageData`, if text
detection returns no annotations (the list is absent or empty), the handler
returns status 200 with body `{success: false, error: "No text detected in
image", grid: g}` where `g` is the grid of `getDefaultBingoCard`, and
`parseBingoText` is not called. -/
theorem handler_no_text (event : Event) (world : Collaborator) (rand : RandomSource)
    (payload : String) (detections : Option (List TextEntry))
    (_hpost : event.httpMethod = "POST")
    (_himage : ∃ parsed imageData, jsonParse event.body = some parsed ∧
      destructureImageData parsed = some imageData ∧ truthy imageData = true)
    (hcall : Effect.detect payload (RecogniserOutcome.result detections) ∈
      (handler event world rand).trace)
    (hempty : detections = none ∨ detections = some []) :
    (handler event world rand).response =
      ⟨200, headers, Body.stringify
        [("success", BodyValue.bool false),
         ("error", BodyValue.str "No text detected in image"),
         ("grid", BodyValue.grid (getDefaultBingoCard rand))]⟩ ∧
    ∀ text, Effect.parseText text ∉ (handler event world rand).trace := by
  rw [handler_of_detect event world rand payload _ hcall]
  rcases hempty with rfl | rfl
  · exact ⟨rfl, fun text h => by simp [detectionRun] at h⟩
  · exact ⟨rfl, fun text h => by simp [detectionRun] at h⟩

/-- Witness of C13: a POST of a PNG data URI against a collaborator that detects
no text. -/
theorem handler_no_text_witness :
    (handler (postImage "data:image/png;base64,AAAA") silentWorld halfSource).response =
      ⟨200, headers, Body.stringify
        [("success", BodyValue.bool false),
         ("error", BodyValue.str "No text detected in image"),
         ("grid", BodyValue.grid (getDefaultBingoCard halfSource))]⟩ :=
  (handler_no_text (postImage "data:image/png;base64,AAAA") silentWorld halfSource "AAAA"
    (some []) rfl ⟨_, _, rfl, rfl, by decide⟩ (by decide!) (Or.inr rfl)).1

theorem isBingoGrid_parse (text : String) (rand : RandomSource) :
    IsBingoGrid (parseBingoText text rand) := by
  by_cases h : 20 ≤ (emittedValues text).length ∧ freeCount (emittedValues text) = 1
  · rw [parseBingoText_accepted text rand h.1 h.2]
    apply isBingoGrid_tabulate
    intro r c _ hc
    exact fillCellAt_bingo _ rand _ c hc fun cell hcell => extractNumbers_bingo _ cell hcell
  · rw [parseBingoText_rejected text rand (by omega)]
    exact isBingoGrid_default rand

theorem handler_of_falsy (event : Event) (world : Collaborator) (rand : RandomSource)
    (props : List (String × Json)) (hpost : event.httpMethod = "POST")
    (hbody : event.body = RequestBody.json (Json.obj props))
    (hfalsy : truthy (lookupProp "imageData" props) = false) :
    handler event world rand = ⟨noImageDataResponse, [Effect.readBody]⟩ := by
  rw [handler_of_post event world rand hpost,
    tryBlock_of_falsy event world rand (Json.obj props) (lookupProp "imageData" props)
      (by rw [hbody]; rfl) rfl hfalsy]

/-- Claim C14: for every POST request whose body is a JSON object in which
`imageData` is missing or falsy (`undefined`, `null`, the empty string, 0,
`false`), the handler returns status 400 with body `{error: "No image data
provided"}`; nothing is handed to the decoder and text detection is not called. -/
theorem handler_no_image (event : Event) (world : Collaborator) (rand : RandomSource)
    (props : List (String × Json)) (hpost : event.httpMethod = "POST")
    (hbody : event.body = RequestBody.json (Json.obj props))
    (hfalsy : truthy (lookupProp "imageData" props) = false) :
    (handler event world rand).response =
      ⟨400, headers, Body.stringify [("error", BodyValue.str "No image data provided")]⟩ ∧
    (∀ payload outcome, Effect.detect payload outcome ∉ (handler event world rand).trace) ∧
    ∀ payload, Effect.decode payload ∉ (handler event world rand).trace := by
  rw [handler_of_falsy event world rand props hpost hbody hfalsy]
  exact ⟨rfl, fun _ _ h => by simp at h, fun _ h => by simp at h⟩

/-- Witness of C14: the falsy values are falsy, and a POST of `{}`, of
`{"imageData": null}`, of `{"imageData": ""}`, of `{"imageData": 0}` and of
`{"imageData": false}` each gets the 400 response, also against a collaborator
that would transcribe the worked example. -/
theorem handler_no_image_witness :
    (truthy none = false ∧ truthy (some Json.null) = false ∧
      truthy (some (Json.str "")) = false ∧ truthy (some (Json.num 0)) = false ∧
      truthy (some (Json.bool false)) = false) ∧
    ∀ imageData ∈ [[], [("imageData", Json.null)], [("imageData", Json.str "")],
        [("imageData", Json.num 0)], [("imageData", Json.bool false)]],
      (handler ⟨"POST", RequestBody.json (Json.obj imageData)⟩ (readingWorld exampleText)
          halfSource).response =
        ⟨400, headers, Body.stringify [("error", BodyValue.str "No image data provided")]⟩ := by
  refine ⟨⟨rfl, rfl, by decide, by decide, rfl⟩, ?_⟩
  intro props hprops
  have hfalsy : truthy (lookupProp "imageData" props) = false := by
    simp only [List.mem_cons, List.mem_singleton, List.not_mem_nil, or_false] at hprops
    rcases hprops with rfl | rfl | rfl | rfl | rfl <;> decide
  exact (handler_no_image ⟨"POST", RequestBody.json (Json.obj props)⟩ (readingWorld exampleText)
    halfSource props rfl rfl hfalsy).1

/-- Evaluation for claim C15: a POST request with no body (`event.body` is
`undefined` or `null`), with a body that is not JSON, or with the body `null`,
throws inside the `try` block before `imageData` is tested; the handler returns
the response of the `catch` block, status 500 with error "OCR processing failed"
and a fallback grid, not status 400 with "No image data provided". -/
theorem handler_no_body (world : Collaborator) (rand : RandomSource) :
    handler ⟨"POST", RequestBody.undefined⟩ world rand =
      ⟨⟨500, headers, Body.stringify
        [("success", BodyValue.bool false),
         ("error", BodyValue.str "OCR processing failed"),
         ("grid", BodyValue.grid (getDefaultBingoCard rand))]⟩, [Effect.readBody]⟩ ∧
    handler ⟨"POST", RequestBody.null⟩ world rand =
      handler ⟨"POST", RequestBody.undefined⟩ world rand ∧
    handler ⟨"POST", RequestBody.invalid⟩ world rand =
      handler ⟨"POST", RequestBody.undefined⟩ world rand ∧
    handler ⟨"POST", RequestBody.json Json.null⟩ world rand =
      handler ⟨"POST", RequestBody.undefined⟩ world rand ∧
    (handler ⟨"POST", RequestBody.null⟩ world rand).response.statusCode = 500 :=
  ⟨rfl, rfl, rfl, rfl, rfl⟩

/-- Counterexample to claim C16: the response to an OPTIONS request, the response
to a GET request and the response to a POST of `{}` carry no grid. -/
theorem handler_grid_counterexample :
    gridOf (handler ⟨"OPTIONS", RequestBody.undefined⟩ silentWorld halfSource).response.body
      = none ∧
    gridOf (handler ⟨"GET", RequestBody.undefined⟩ silentWorld halfSource).response.body
      = none ∧
    gridOf (handler ⟨"POST", RequestBody.json (Json.obj [])⟩ silentWorld
      halfSource).response.body = none := by
  decide!

/-- Claim C16 as amended: for every request and every behaviour of the
collaborator, every response other than the response to an OPTIONS request, the
405 response and the 400 response has a property `grid` holding a bingo grid of
5 rows of 5 cells. -/
theorem handler_grid (event : Event) (world : Collaborator) (rand : RandomSource)
    (hoptions : event.httpMethod ≠ "OPTIONS")
    (h405 : (handler event world rand).response.statusCode ≠ 405)
    (h400 : (handler event world rand).response.statusCode ≠ 400) :
    ∃ g, gridOf (handler event world rand).response.body = some g ∧ IsBingoGrid g := by
  rcases handler_cases event world rand with ⟨ho, -⟩ | ⟨-, -, hr⟩ | ⟨-, hr⟩ | ⟨-, hr⟩ |
    ⟨-, parsed, s, -, -, -, -, hr⟩
  · exact absurd ho hoptions
  · rw [hr] at h405
    exact absurd rfl h405
  · rw [hr] at h400
    exact absurd rfl h400
  · rw [hr]
    exact ⟨getDefaultBingoCard rand, rfl, isBingoGrid_default rand⟩
  · rw [hr]
    unfold detectionRun
    split
    · exact ⟨getDefaultBingoCard rand, rfl, isBingoGrid_default rand⟩
    · exact ⟨getDefaultBingoCard rand, rfl, isBingoGrid_default rand⟩
    · exact ⟨getDefaultBingoCard rand, rfl, isBingoGrid_default rand⟩
    · exact ⟨getDefaultBingoCard rand, rfl, isBingoGrid_default rand⟩
    · exact ⟨_, rfl, isBingoGrid_parse _ rand⟩

/-- Witness of the amended C16: a POST with no body gets the 500 response, which
carries the default card. -/
theorem handler_grid_witness :
    gridOf (handler ⟨"POST", RequestBody.undefined⟩ silentWorld halfSource).response.body =
      some (getDefaultBingoCard halfSource) ∧
    ∃ g, gridOf (handler ⟨"POST", RequestBody.undefined⟩ silentWorld halfSource).response.body =
      some g ∧ IsBingoGrid g :=
  ⟨rfl, handler_grid ⟨"POST", RequestBody.undefined⟩ silentWorld halfSource (by decide)
    (by decide!) (by decide!)⟩

/-- Claim C17: method dispatch.  A request whose method is OPTIONS gets status 200
with the empty string as body; a request whose method is neither OPTIONS nor
POST gets status 405.  In both cases the run has no effect (the body is not read,
the collaborator is not called), and the response is the same for every body,
collaborator and random source. -/
theorem handler_dispatch (event : Event) (world : Collaborator) (rand : RandomSource) :
    (event.httpMethod = "OPTIONS" →
      handler event world rand = ⟨⟨200, headers, Body.raw ""⟩, []⟩) ∧
    (event.httpMethod ≠ "OPTIONS" → event.httpMethod ≠ "POST" →
      (handler event world rand).response.statusCode = 405 ∧
      handler event world rand =
        ⟨⟨405, headers, Body.stringify [("error", BodyValue.str "Method not allowed")]⟩, []⟩) ∧
    (event.httpMethod ≠ "POST" →
      (handler event world rand).trace = [] ∧
      ∀ (body : RequestBody) (world2 : Collaborator) (rand2 : RandomSource),
        handler ⟨event.httpMethod, body⟩ world2 rand2 = handler event world rand) := by
  refine ⟨fun h => handler_of_options event world rand h, fun h1 h2 => ?_, fun h2 => ?_⟩
  · rw [handler_of_other event world rand h1 h2]
    exact ⟨rfl, rfl⟩
  · by_cases h1 : event.httpMethod = "OPTIONS"
    · rw [handler_of_options event world rand h1]
      exact ⟨rfl, fun body world2 rand2 => handler_of_options _ world2 rand2 h1⟩
    · rw [handler_of_other event world rand h1 h2]
      exact ⟨rfl, fun body world2 rand2 => handler_of_other _ world2 rand2 h1 h2⟩

/-- Witness of C17: an OPTIONS request and a DELETE request, each with a body that
a POST would have transcribed. -/
theorem handler_dispatch_witness :
    handler ⟨"OPTIONS", (postImage "AAAA").body⟩ (readingWorld exampleText) halfSource =
      ⟨⟨200, headers, Body.raw ""⟩, []⟩ ∧
    (handler ⟨"DELETE", (postImage "AAAA").body⟩ (readingWorld exampleText)
      halfSource).response.statusCode = 405 :=
  ⟨(handler_dispatch ⟨"OPTIONS", (postImage "AAAA").body⟩ (readingWorld exampleText)
      halfSource).1 rfl,
    ((handler_dispatch ⟨"DELETE", (postImage "AAAA").body⟩ (readingWorld exampleText)
      halfSource).2.1 (by decide) (by decide)).1⟩

/-- Claim C18: for every request and every behaviour of the collaborator, the
response has the headers `Access-Control-Allow-Origin: *`,
`Access-Control-Allow-Headers: Content-Type` and
`Access-Control-Allow-Methods: POST, OPTIONS`, whatever its status. -/
theorem handler_headers (event : Event) (world : Collaborator) (rand : RandomSource) :
    (handler event world rand).response.headers =
      [("Access-Control-Allow-Origin", "*"),
       ("Access-Control-Allow-Headers", "Content-Type"),
       ("Access-Control-Allow-Methods", "POST, OPTIONS")] ∧
    (handler event world rand).response.statusCode ∈ [200, 400, 405, 500] := by
  have hstatus : ∀ r : Response, r = optionsResponse ∨ r = methodNotAllowedResponse ∨
      r = noImageDataResponse ∨ r = failureResponse rand ∨ r = noTextResponse rand ∨
      (∃ t, r = successResponse t rand) →
      r.headers = headers ∧ r.statusCode ∈ [200, 400, 405, 500] := by
    intro r hr
    rcases hr with rfl | rfl | rfl | rfl | rfl | ⟨t, rfl⟩ <;>
      exact ⟨rfl, by simp [optionsResponse, methodNotAllowedResponse, noImageDataResponse,
        failureResponse, noTextResponse, successResponse]⟩
  apply hstatus
  rcases handler_cases event world rand with ⟨-, hr⟩ | ⟨-, -, hr⟩ | ⟨-, hr⟩ | ⟨-, hr⟩ |
    ⟨-, parsed, s, -, -, -, -, hr⟩
  · rw [hr]; exact Or.inl rfl
  · rw [hr]; exact Or.inr (Or.inl rfl)
  · rw [hr]; exact Or.inr (Or.inr (Or.inl rfl))
  · rw [hr]; exact Or.inr (Or.inr (Or.inr (Or.inl rfl)))
  · rw [hr]
    unfold detectionRun
    split
    · exact Or.inr (Or.inr (Or.inr (Or.inl rfl)))
    · exact Or.inr (Or.inr (Or.inr (Or.inl rfl)))
    · exact Or.inr (Or.inr (Or.inr (Or.inr (Or.inl rfl))))
    · exact Or.inr (Or.inr (Or.inr (Or.inr (Or.inl rfl))))
    · exact Or.inr (Or.inr (Or.inr (Or.inr (Or.inr ⟨_, rfl⟩))))

theorem dropLeading_append (pre rest : List Char) : dropLeading pre (pre ++ rest) = some rest := by
  induction pre with
  | nil => cases rest <;> rfl
  | cons a pre ih => simp [dropLeading, ih]

theorem eq_append_of_dropLeading (pre s rest : List Char) (h : dropLeading pre s = some rest) :
    s = pre ++ rest := by
  induction pre generalizing s with
  | nil =>
    cases s <;> simp [dropLeading] at h <;> simp [h]
  | cons a pre ih =>
    cases s with
    | nil => simp [dropLeading] at h
    | cons b s =>
      simp only [dropLeading] at h
      split at h
      · rename_i hab
        rw [hab, ih s h]
        rfl
      · cases h

theorem takeWhile_lower_append (T rest : List Char) (hlow : ∀ c ∈ T, isLowerLetter c = true)
    (hrest : ∀ c cs, rest = c :: cs → isLowerLetter c = false) :
    (T ++ rest).takeWhile isLowerLetter = T ∧ (T ++ rest).dropWhile isLowerLetter = rest := by
  induction T with
  | nil =>
    cases rest with
    | nil => exact ⟨rfl, rfl⟩
    | cons c cs =>
      have hc := hrest c cs rfl
      simp [List.takeWhile, List.dropWhile, hc]
  | cons a T ih =>
    have ha := hlow a (List.mem_cons_self a T)
    have ih2 := ih fun c hc => hlow c (List.mem_cons_of_mem a hc)
    simp [List.takeWhile, List.dropWhile, ha, ih2.1, ih2.2]

theorem stripDataUri_of_lowercase (T p : List Char) (hT : T ≠ [])
    (hlow : ∀ c ∈ T, isLowerLetter c = true) :
    stripDataUri ("data:image/".toList ++ (T ++ (";base64,".toList ++ p))) = p := by
  have hsplit := takeWhile_lower_append T (";base64,".toList ++ p) hlow (by
    intro c cs h
    have hc : c = ';' := by
      have h2 : (";base64,".toList ++ p).head? = (c :: cs).head? := by rw [h]
      simpa using h2.symm
    rw [hc]
    decide)
  unfold stripDataUri
  rw [dropLeading_append]
  simp only [hsplit.1, hsplit.2, dropLeading_append]
  cases T with
  | nil => exact absurd rfl hT
  | cons a T => rfl

theorem stripDataUri_unchanged (s : List Char)
    (hno : ∀ T p : List Char, T ≠ [] → (∀ c ∈ T, isLowerLetter c = true) →
      s ≠ "data:image/".toList ++ (T ++ (";base64,".toList ++ p))) :
    stripDataUri s = s := by
  unfold stripDataUri
  split
  · rfl
  · rename_i rest hrest
    split
    · rfl
    · rename_i hne
      split
      · rfl
      · rename_i payload hpay
        exfalso
        refine hno (rest.takeWhile isLowerLetter) payload ?_ ?_ ?_
        · intro h
          rw [h] at hne
          exact hne rfl
        · intro c hc
          exact (List.mem_takeWhile_imp hc)
        · rw [← eq_append_of_dropLeading _ _ _ hpay, List.takeWhile_append_dropWhile]
          exact eq_append_of_dropLeading _ _ _ hrest

/-- Evaluation for claim C19: for the image types `svg+xml`, `x-icon`, `jp2` and
`PNG` the expression `/^data:image\/[a-z]+;base64,/` does not match, and the
program hands the whole data URI to the base64 decoder and to text detection,
not its payload `AAAA`. -/
theorem stripDataUriPrefix_keeps_prefix :
    stripDataUriPrefix ("data:image/" ++ "svg+xml" ++ ";base64," ++ "AAAA") =
      "data:image/svg+xml;base64,AAAA" ∧
    stripDataUriPrefix ("data:image/" ++ "x-icon" ++ ";base64," ++ "AAAA") =
      "data:image/x-icon;base64,AAAA" ∧
    stripDataUriPrefix ("data:image/" ++ "jp2" ++ ";base64," ++ "AAAA") =
      "data:image/jp2;base64,AAAA" ∧
    stripDataUriPrefix ("data:image/" ++ "PNG" ++ ";base64," ++ "AAAA") =
      "data:image/PNG;base64,AAAA" ∧
    stripDataUriPrefix ("data:image/" ++ "svg+xml" ++ ";base64," ++ "AAAA") ≠ "AAAA" ∧
    (handler (postImage "data:image/svg+xml;base64,AAAA") silentWorld halfSource).trace =
      [Effect.readBody, Effect.decode "data:image/svg+xml;base64,AAAA",
        Effect.detect "data:image/svg+xml;base64,AAAA" (RecogniserOutcome.result (some []))] ∧
    stripDataUriPrefix ("data:image/" ++ "png" ++ ";base64," ++ "AAAA") = "AAAA" := by
  decide!

/-- Where the prefix is removed: for every image type `T` made of one or more
letters `a` to `z` and every payload `p`, the string handed to the base64 decoder
for `imageData = "data:image/" + T + ";base64," + p` is exactly `p`; every
`imageData` that does not start with such a prefix is handed over unchanged; and
in a run that reaches the decoder with the string `imageData`, the string handed
to the decoder and to text detection is the stripped one. -/
theorem stripDataUriPrefix_lowercase (T p : String) (hT : T ≠ "")
    (hlow : ∀ c ∈ T.toList, isLowerLetter c = true) :
    stripDataUriPrefix ("data:image/" ++ T ++ ";base64," ++ p) = p ∧
    (∀ s : String,
      (¬∃ T2 p2 : String, T2 ≠ "" ∧ (∀ c ∈ T2.toList, isLowerLetter c = true) ∧
        s = "data:image/" ++ T2 ++ ";base64," ++ p2) →
      stripDataUriPrefix s = s) ∧
    ∀ (event : Event) (world : Collaborator) (rand : RandomSource) (parsed : Json) (s : String),
      event.httpMethod = "POST" → jsonParse event.body = some parsed →
      destructureImageData parsed = some (some (Json.str s)) → s ≠ "" →
      world.clientCreated = true →
      Effect.decode (stripDataUriPrefix s) ∈ (handler event world rand).trace ∧
      ∀ t, Effect.decode t ∈ (handler event world rand).trace → t = stripDataUriPrefix s := by
  refine ⟨?_, ?_, ?_⟩
  · have hne : T.toList ≠ [] := by
      intro h
      apply hT
      cases T
      simp only [String.toList] at h
      rw [h]
    unfold stripDataUriPrefix
    have hl : ("data:image/" ++ T ++ ";base64," ++ p).toList =
        "data:image/".toList ++ (T.toList ++ (";base64,".toList ++ p.toList)) := by
      simp only [String.toList, String.data_append, List.append_assoc]
    rw [hl, stripDataUri_of_lowercase T.toList p.toList hne hlow]
    rfl
  · intro s hno
    have hkeep : stripDataUri s.toList = s.toList := by
      apply stripDataUri_unchanged
      intro T2 p2 hT2 hlow2 hs
      apply hno
      refine ⟨String.mk T2, String.mk p2, ?_, hlow2, ?_⟩
      · intro h
        apply hT2
        have := congrArg String.toList h
        simpa using this
      · have : s = String.mk s.toList := rfl
        rw [this, hs]
        apply String.ext
        simp only [String.data_append, List.append_assoc]
        rfl
    unfold stripDataUriPrefix
    rw [hkeep]
    rfl
  · intro event world rand parsed s hpost hparse hd hs hc
    rw [handler_of_string event world rand parsed s hpost hparse hd hs hc]
    unfold detectionRun
    split <;> simp

/-- Example for the lowercase types: the type `png`. -/
theorem stripDataUriPrefix_lowercase_witness :
    stripDataUriPrefix ("data:image/" ++ "png" ++ ";base64," ++ "iVBORw0KGgo=") =
      "iVBORw0KGgo=" ∧
    stripDataUriPrefix "iVBORw0KGgo=" = "iVBORw0KGgo=" :=
  ⟨(stripDataUriPrefix_lowercase "png" "iVBORw0KGgo=" (by decide) (by decide)).1, by decide!⟩

theorem exists_draw (k : Int) (h0 : 0 ≤ k) (h14 : k ≤ 14) :
    ∃ x : Unit01, roundsUpFrom k / 15 ≤ x.val ∧ x.val < roundsUpFrom (k + 1) / 15 := by
  interval_cases k
  · refine ⟨⟨8 / 256, by norm_num, by norm_num, by decide!⟩, ?_, ?_⟩
    · show roundsUpFrom 0 / 15 ≤ (8 : ℚ) / 256
      unfold roundsUpFrom halfUlpBelow
      norm_num
    · show (8 : ℚ) / 256 < roundsUpFrom (0 + 1) / 15
      unfold roundsUpFrom halfUlpBelow
      norm_num
  · refine ⟨⟨25 / 256, by norm_num, by norm_num, by decide!⟩, ?_, ?_⟩
    · show roundsUpFrom 1 / 15 ≤ (25 : ℚ) / 256
      unfold roundsUpFrom halfUlpBelow
      norm_num
    · show (25 : ℚ) / 256 < roundsUpFrom (1 + 1) / 15
      unfold roundsUpFrom halfUlpBelow
      norm_num
  · refine ⟨⟨42 / 256, by norm_num, by norm_num, by decide!⟩, ?_, ?_⟩
    · show roundsUpFrom 2 / 15 ≤ (42 : ℚ) / 256
      unfold roundsUpFrom halfUlpBelow
      norm_num
    · show (42 : ℚ) / 256 < roundsUpFrom (2 + 1) / 15
      unfold roundsUpFrom halfUlpBelow
      norm_num
  · refine ⟨⟨59 / 256, by norm_num, by norm_num, by decide!⟩, ?_, ?_⟩
    · show roundsUpFrom 3 / 15 ≤ (59 : ℚ) / 256
      unfold roundsUpFrom halfUlpBelow
      norm_num
    · show (59 : ℚ) / 256 < roundsUpFrom (3 + 1) / 15
      unfold roundsUpFrom halfUlpBelow
      norm_num
  · refine ⟨⟨76 / 256, by norm_num, by norm_num, by decide!⟩, ?_, ?_⟩
    · show roundsUpFrom 4 / 15 ≤ (76 : ℚ) / 256
      unfold roundsUpFrom halfUlpBelow
      norm_num
    · show (76 : ℚ) / 256 < roundsUpFrom (4 + 1) / 15
      unfold roundsUpFrom halfUlpBelow
      norm_num
  · refine ⟨⟨93 / 256, by norm_num, by norm_num, by decide!⟩, ?_, ?_⟩
    · show roundsUpFrom 5 / 15 ≤ (93 : ℚ) / 256
      unfold roundsUpFrom halfUlpBelow
      norm_num
    · show (93 : ℚ) / 256 < roundsUpFrom (5 + 1) / 15
      unfold roundsUpFrom halfUlpBelow
      norm_num
  · refine ⟨⟨110 / 256, by norm_num, by norm_num, by decide!⟩, ?_, ?_⟩
    · show roundsUpFrom 6 / 15 ≤ (110 : ℚ) / 256
      unfold roundsUpFrom halfUlpBelow
      norm_num
    · show (110 : ℚ) / 256 < roundsUpFrom (6 + 1) / 15
      unfold roundsUpFrom halfUlpBelow
      norm_num
  · refine ⟨⟨127 / 256, by norm_num, by norm_num, by decide!⟩, ?_, ?_⟩
    · show roundsUpFrom 7 / 15 ≤ (127 : ℚ) / 256
      unfold roundsUpFrom halfUlpBelow
      norm_num
    · show (127 : ℚ) / 256 < roundsUpFrom (7 + 1) / 15
      unfold roundsUpFrom halfUlpBelow
      norm_num
  · refine ⟨⟨144 / 256, by norm_num, by norm_num, by decide!⟩, ?_, ?_⟩
    · show roundsUpFrom 8 / 15 ≤ (144 : ℚ) / 256
      unfold roundsUpFrom halfUlpBelow
      norm_num
    · show (144 : ℚ) / 256 < roundsUpFrom (8 + 1) / 15
      unfold roundsUpFrom halfUlpBelow
      norm_num
  · refine ⟨⟨161 / 256, by norm_num, by norm_num, by decide!⟩, ?_, ?_⟩
    · show roundsUpFrom 9 / 15 ≤ (161 : ℚ) / 256
      unfold roundsUpFrom halfUlpBelow
      norm_num
    · show (161 : ℚ) / 256 < roundsUpFrom (9 + 1) / 15
      unfold roundsUpFrom halfUlpBelow
      norm_num
  · refine ⟨⟨178 / 256, by norm_num, by norm_num, by decide!⟩, ?_, ?_⟩
    · show roundsUpFrom 10 / 15 ≤ (178 : ℚ) / 256
      unfold roundsUpFrom halfUlpBelow
      norm_num
    · show (178 : ℚ) / 256 < roundsUpFrom (10 + 1) / 15
      unfold roundsUpFrom halfUlpBelow
      norm_num
  · refine ⟨⟨195 / 256, by norm_num, by norm_num, by decide!⟩, ?_, ?_⟩
    · show roundsUpFrom 11 / 15 ≤ (195 : ℚ) / 256
      unfold roundsUpFrom halfUlpBelow
      norm_num
    · show (195 : ℚ) / 256 < roundsUpFrom (11 + 1) / 15
      unfold roundsUpFrom halfUlpBelow
      norm_num
  · refine ⟨⟨212 / 256, by norm_num, by norm_num, by decide!⟩, ?_, ?_⟩
    · show roundsUpFrom 12 / 15 ≤ (212 : ℚ) / 256
      unfold roundsUpFrom halfUlpBelow
      norm_num
    · show (212 : ℚ) / 256 < roundsUpFrom (12 + 1) / 15
      unfold roundsUpFrom halfUlpBelow
      norm_num
  · refine ⟨⟨229 / 256, by norm_num, by norm_num, by decide!⟩, ?_, ?_⟩
    · show roundsUpFrom 13 / 15 ≤ (229 : ℚ) / 256
      unfold roundsUpFrom halfUlpBelow
      norm_num
    · show (229 : ℚ) / 256 < roundsUpFrom (13 + 1) / 15
      unfold roundsUpFrom halfUlpBelow
      norm_num
  · refine ⟨⟨246 / 256, by norm_num, by norm_num, by decide!⟩, ?_, ?_⟩
    · show roundsUpFrom 14 / 15 ≤ (246 : ℚ) / 256
      unfold roundsUpFrom halfUlpBelow
      norm_num
    · show (246 : ℚ) / 256 < roundsUpFrom (14 + 1) / 15
      unfold roundsUpFrom halfUlpBelow
      norm_num

theorem halfUlpBelow_bounds (k : Int) : 0 ≤ halfUlpBelow k ∧ halfUlpBelow k ≤ 1 / 2 ^ 50 := by
  unfold halfUlpBelow
  split
  · norm_num
  · split
    · norm_num
    · split
      · norm_num
      · split
        · norm_num
        · split <;> norm_num

theorem roundsUpFrom_step (k : Int) (h0 : 0 ≤ k) (h14 : k ≤ 14) :
    roundsUpFrom (k + 1) / 15 - roundsUpFrom k / 15 ≤ 1 / 15 ∧
    1 / 15 - 1 / 2 ^ 54 ≤ roundsUpFrom (k + 1) / 15 - roundsUpFrom k / 15 := by
  interval_cases k <;> (unfold roundsUpFrom halfUlpBelow; norm_num)

/-- Counterexample to claim C20: for the first column and the result
`4803839602528529 / 2 ^ 53` of `Math.random()`, the binary64 number nearest to
8/15, the program draws 9: the product with 15 lies below 8 and rounds to 8.
The result lies below 8/15, outside the interval `[(9 - 1) / 15, (9 - 1 + 1) / 15)`
claimed for 9, and inside the one claimed for 8. -/
theorem randomInt_uniform_counterexample :
    (1, 15) ∈ columnRanges ∧
    (0 ≤ nearEightFifteenths.val ∧ nearEightFifteenths.val < 1) ∧
    randomInt 1 15 nearEightFifteenths = 9 ∧
    nearEightFifteenths.val * 15 < 8 ∧
    ¬(((9 : ℚ) - 1) / (15 - 1 + 1) ≤ nearEightFifteenths.val ∧
      nearEightFifteenths.val < ((9 : ℚ) - 1 + 1) / (15 - 1 + 1)) ∧
    (((8 : ℚ) - 1) / (15 - 1 + 1) ≤ nearEightFifteenths.val ∧
      nearEightFifteenths.val < ((8 : ℚ) - 1 + 1) / (15 - 1 + 1)) := by
  refine ⟨by decide, ⟨by decide!, by decide!⟩, by decide!, by decide!, by decide!,
    by decide!, by decide!⟩

/-- Claim C20 as amended: the draw is uniform over the range of a column up to
the rounding of the product.  For every range `[min, max]` of the table the width
`max - min + 1` is 15; for every result `x` of `Math.random()` (a binary64 number
of `[0,1)`) the draw `floor(x * (max - min + 1)) + min`, with the product rounded
to binary64, lies in `[min, max]`; for every integer `v` of `[min, max]` the
results that give `v` are exactly those of the interval from
`(v - min - h(v - min)) / (max - min + 1)` to
`(v - min + 1 - h(v - min + 1)) / (max - min + 1)`, the first included and the
second not, where `h(k)` is half the unit in the last place of the numbers below
`k` (`halfUlpBelow`, at most `2^-50`, zero at 0); some result gives `v`; and the
length of the interval lies between `1/15 - 2^-54` and `1/15`. -/
theorem randomInt_uniform (min max : Int) (hrange : (min, max) ∈ columnRanges) :
    max - min + 1 = 15 ∧
    (∀ x : Unit01, min ≤ randomInt min max x ∧ randomInt min max x ≤ max) ∧
    (∀ k : Int, 0 ≤ halfUlpBelow k ∧ halfUlpBelow k ≤ 1 / 2 ^ 50) ∧
    halfUlpBelow 0 = 0 ∧
    ∀ v : Int, min ≤ v → v ≤ max →
      (∀ x : Unit01, randomInt min max x = v ↔
        ((((v - min : Int) : ℚ) - halfUlpBelow (v - min)) / ((max - min + 1 : Int) : ℚ) ≤ x.val ∧
          x.val < (((v - min + 1 : Int) : ℚ) - halfUlpBelow (v - min + 1)) /
            ((max - min + 1 : Int) : ℚ))) ∧
      (∃ x : Unit01, randomInt min max x = v) ∧
      ((((v - min + 1 : Int) : ℚ) - halfUlpBelow (v - min + 1)) / ((max - min + 1 : Int) : ℚ) -
          (((v - min : Int) : ℚ) - halfUlpBelow (v - min)) / ((max - min + 1 : Int) : ℚ) ≤
        1 / 15) ∧
      (1 / 15 - 1 / 2 ^ 54 ≤
        (((v - min + 1 : Int) : ℚ) - halfUlpBelow (v - min + 1)) / ((max - min + 1 : Int) : ℚ) -
          (((v - min : Int) : ℚ) - halfUlpBelow (v - min)) / ((max - min + 1 : Int) : ℚ)) := by
  have hw : max - min + 1 = 15 := by
    simp only [columnRanges, List.mem_cons, Prod.mk.injEq, List.mem_singleton,
      List.not_mem_nil, or_false] at hrange
    omega
  refine ⟨hw, fun x => randomInt_mem min max x hw, halfUlpBelow_bounds, by decide!, ?_⟩
  intro v hv1 hv2
  have hiff := fun x : Unit01 => randomInt_eq_iff min max x v hw hv1 hv2
  have hstep := roundsUpFrom_step (v - min) (by omega) (by omega)
  rw [hw]
  unfold roundsUpFrom at hiff hstep
  push_cast at hiff hstep ⊢
  refine ⟨hiff, ?_, hstep.1, hstep.2⟩
  obtain ⟨x, hx1, hx2⟩ := exists_draw (v - min) (by omega) (by omega)
  refine ⟨x, (hiff x).mpr ?_⟩
  unfold roundsUpFrom at hx1 hx2
  push_cast at hx1 hx2
  exact ⟨hx1, hx2⟩

/-- Witness of the amended C20 on the first column: one half gives 8, which lies
in the range, and some result gives 9. -/
theorem randomInt_uniform_witness :
    randomInt 1 15 (halfSource 0) = 8 ∧
    (1 ≤ randomInt 1 15 (halfSource 0) ∧ randomInt 1 15 (halfSource 0) ≤ 15) ∧
    ∃ x : Unit01, randomInt 1 15 x = 9 :=
  ⟨by decide!, (randomInt_uniform 1 15 (by decide)).2.1 (halfSource 0),
    ((randomInt_uniform 1 15 (by decide)).2.2.2.2 9 (by decide) (by decide)).2.1⟩

end BingoOcr
